import Mathlib

/-!
# plainsight: the `auth` client and the command-line front end

A shallow embedding of `auth/client.go` and `main.go`.

* A Go `string` is a sequence of bytes; it is modelled as `List Nat`, every
  operation producing bytes reduces modulo 256 where the source converts.
* Go functions that return `(value, error)` return `Except GoError value`.
* Effects (standard output, calls of the HTTP client, reading and closing a
  response body) are recorded, in order, in an explicit list of events.
* The parts of the Go standard library that the program calls (`unicode/utf8`,
  `fmt.Errorf`, `errors.Is`, `strconv.Itoa`, `net/url`, `net/http`,
  `encoding/json`) are modelled by the definitions of the first sections.
-/

namespace Plainsight

/-! ## Go strings and `unicode/utf8` -/

/-- A Go string: its bytes, in order. -/
abbrev GoString := List Nat

/-- The rune `utf8.RuneError`, U+FFFD. -/
def RuneError : Nat := 0xFFFD

/-- Go `utf8.AppendRune`: the UTF-8 encoding of a rune; a surrogate or a value
above U+10FFFF is encoded as `RuneError`. Shifts and masks are written with
division and remainder. -/
def EncodeRune (r : Nat) : GoString :=
  if r < 0x80 then [r]
  else if r < 0x800 then [0xC0 + r / 64, 0x80 + r % 64]
  else if 0x10FFFF < r ∨ (0xD800 ≤ r ∧ r ≤ 0xDFFF) then [0xEF, 0xBF, 0xBD]
  else if r < 0x10000 then [0xE0 + r / 4096, 0x80 + r / 64 % 64, 0x80 + r % 64]
  else [0xF0 + r / 262144, 0x80 + r / 4096 % 64, 0x80 + r / 64 % 64, 0x80 + r % 64]

/-- The width `first[s0] & 7` of the encoding that starts with the leading byte
`s0`, for `s0` from 0xC2 to 0xF4. -/
def runeWidth (s0 : Nat) : Nat := if s0 < 0xE0 then 2 else if s0 < 0xF0 then 3 else 4

/-- The least second byte accepted after the leading byte `s0` (the `lo` of
`acceptRanges`). -/
def acceptLo (s0 : Nat) : Nat := if s0 = 0xE0 then 0xA0 else if s0 = 0xF0 then 0x90 else 0x80

/-- The greatest second byte accepted after the leading byte `s0` (the `hi` of
`acceptRanges`). -/
def acceptHi (s0 : Nat) : Nat := if s0 = 0xED then 0x9F else if s0 = 0xF4 then 0x8F else 0xBF

/-- Go `utf8.DecodeRuneInString`: the first rune of `s` and its width in bytes.
An invalid or truncated encoding yields `(RuneError, 1)`, the empty string
`(RuneError, 0)`. Leading bytes below 0x80 are ASCII, those below 0xC2 or above
0xF4 are invalid. -/
def DecodeRune : GoString → Nat × Nat
  | [] => (RuneError, 0)
  | s0 :: t =>
    if s0 < 0x80 then (s0, 1)
    else if s0 < 0xC2 ∨ 0xF4 < s0 then (RuneError, 1)
    else if t.length + 1 < runeWidth s0 then (RuneError, 1)
    else
      match t with
      | [] => (RuneError, 1)
      | s1 :: t1 =>
        if s1 < acceptLo s0 ∨ acceptHi s0 < s1 then (RuneError, 1)
        else if runeWidth s0 ≤ 2 then (s0 % 32 * 64 + s1 % 64, 2)
        else
          match t1 with
          | [] => (RuneError, 1)
          | s2 :: t2 =>
            if s2 < 0x80 ∨ 0xBF < s2 then (RuneError, 1)
            else if runeWidth s0 ≤ 3 then (s0 % 16 * 4096 + s1 % 64 * 64 + s2 % 64, 3)
            else
              match t2 with
              | [] => (RuneError, 1)
              | s3 :: _ =>
                if s3 < 0x80 ∨ 0xBF < s3 then (RuneError, 1)
                else (s0 % 8 * 262144 + s1 % 64 * 4096 + s2 % 64 * 64 + s3 % 64, 4)

/-- The Go string whose runes are the given code points. -/
def utf8 (cs : List Nat) : GoString := cs.flatMap EncodeRune

/-- The Go string written as the literal `s`. -/
def str (s : String) : GoString := utf8 (s.toList.map Char.toNat)

/-- Go `strings.HasPrefix`. -/
def startsWith : GoString → GoString → Bool
  | _, [] => true
  | [], _ :: _ => false
  | c :: s, p :: ps => c == p && startsWith s ps

/-- Go `strings.Index`: the byte offset of the first occurrence of `sep`. -/
def indexOf (sep : GoString) : GoString → Option Nat
  | [] => if sep = [] then some 0 else none
  | c :: s =>
    if startsWith (c :: s) sep then some 0
    else (indexOf sep s).map (· + 1)

/-- Go `strings.LastIndex` for a one-byte separator. -/
def lastIndexByte (b : Nat) : GoString → Option Nat
  | [] => none
  | c :: s =>
    match lastIndexByte b s with
    | some i => some (i + 1)
    | none => if c = b then some 0 else none

/-- Go `strings.Cut`: the text before and after the first `sep`, and whether
`sep` was found. -/
def Cut (s sep : GoString) : GoString × GoString × Bool :=
  match indexOf sep s with
  | some i => (s.take i, s.drop (i + sep.length), true)
  | none => (s, [], false)

/-- Go `strings.ToLower` on ASCII letters (the only bytes of a URL scheme). -/
def ToLower (s : GoString) : GoString :=
  s.map (fun c => if 65 ≤ c ∧ c ≤ 90 then c + 32 else c)

/-- Go `strconv.Itoa`: the decimal text of an integer. -/
def Itoa (i : Int) : GoString :=
  if i < 0 then 45 :: (Nat.toDigits 10 i.natAbs).map Char.toNat
  else (Nat.toDigits 10 i.toNat).map Char.toNat

/-! ## Go errors -/

deriving instance DecidableEq for Except

/-- Go error values. `errorString` is what `errors.New` makes, `wrapError` and
`wrapErrors` what `fmt.Errorf` makes for a format with one and with two `%w`
verbs, `ErrRequestFailure` is the type of that name in `auth/client.go`, and
`lib` is an error made inside the standard library (its text is a description,
not the library's exact wording). -/
inductive GoError
  | errorString (s : GoString)
  | wrapError (msg : GoString) (err : GoError)
  | wrapErrors (msg : GoString) (err1 err2 : GoError)
  | ErrRequestFailure (baseStatus : Int)
  | lib (msg : GoString)
  deriving DecidableEq

/-- Method `Status` of `*ErrRequestFailure` (client.go line 117); `none` for
an error of another type. -/
def GoError.Status : GoError → Option Int
  | .ErrRequestFailure baseStatus => some baseStatus
  | _ => none

/-- Method `Error` of an error value; for `*ErrRequestFailure` it is client.go
lines 118-120. -/
def GoError.Error : GoError → GoString
  | .errorString s => s
  | .wrapError msg _ => msg
  | .wrapErrors msg _ _ => msg
  | .ErrRequestFailure baseStatus =>
    str "request returned an unexpected status code of " ++ Itoa baseStatus
  | .lib msg => msg

/-- The text `fmt.Errorf` produces for a format whose only verbs are `%w`. -/
def errorText : GoString → List GoError → GoString
  | 37 :: 119 :: rest, a :: args => a.Error ++ errorText rest args
  | 37 :: 119 :: rest, [] => str "%!w(MISSING)" ++ errorText rest []
  | c :: rest, args => c :: errorText rest args
  | [], _ => []

/-- Go `fmt.Errorf` for the formats of this program: every operand is an error
bound to a `%w` verb. With one operand the result wraps it (`Unwrap() error`),
with two it wraps both (`Unwrap() []error`). -/
def Errorf (format : GoString) (args : List GoError) : GoError :=
  match args with
  | [e] => .wrapError (errorText format args) e
  | [e1, e2] => .wrapErrors (errorText format args) e1 e2
  | _ => .errorString (errorText format args)

/-- Go `errors.Is`: `err` is `target`, or something it wraps is, searched depth
first. Identity of error values is structural equality here; the package-level
error values of the program all differ in their text. -/
def Is : GoError → GoError → Bool
  | .wrapError msg e, target =>
    (GoError.wrapError msg e == target) || Is e target
  | .wrapErrors msg e1 e2, target =>
    (GoError.wrapErrors msg e1 e2 == target) || Is e1 target || Is e2 target
  | err, target => err == target

/-! ## `net/url` -/

/-- The escaping modes of `net/url` (type `encoding`). -/
inductive encoding
  | encodePath
  | encodePathSegment
  | encodeHost
  | encodeZone
  | encodeUserPassword
  | encodeQueryComponent
  | encodeFragment
  deriving DecidableEq

/-- Whether a byte is an ASCII letter or digit. -/
def isAlnum (c : Nat) : Bool :=
  (97 ≤ c && c ≤ 122) || (65 ≤ c && c ≤ 90) || (48 ≤ c && c ≤ 57)

/-- Go `url.ishex`. -/
def ishex (c : Nat) : Bool :=
  (48 ≤ c && c ≤ 57) || (97 ≤ c && c ≤ 102) || (65 ≤ c && c ≤ 70)

/-- Go `url.unhex`. -/
def unhex (c : Nat) : Nat :=
  if 48 ≤ c ∧ c ≤ 57 then c - 48
  else if 97 ≤ c ∧ c ≤ 102 then c - 97 + 10
  else if 65 ≤ c ∧ c ≤ 70 then c - 65 + 10
  else 0

/-- Go `url.shouldEscape`: whether byte `c` must be percent-escaped in the
given part of a URL. -/
def shouldEscape (c : Nat) (mode : encoding) : Bool :=
  if isAlnum c then false
  else if (mode = .encodeHost ∨ mode = .encodeZone) ∧
      c ∈ [33, 36, 38, 39, 40, 41, 42, 43, 44, 59, 61, 58, 91, 93, 60, 62, 34] then false
  else if c ∈ [45, 95, 46, 126] then false
  else if c ∈ [36, 38, 43, 44, 47, 58, 59, 61, 63, 64] ∧ mode = .encodePath then c == 63
  else if c ∈ [36, 38, 43, 44, 47, 58, 59, 61, 63, 64] ∧ mode = .encodePathSegment then
    c == 47 || c == 59 || c == 44 || c == 63
  else if c ∈ [36, 38, 43, 44, 47, 58, 59, 61, 63, 64] ∧ mode = .encodeUserPassword then
    c == 64 || c == 47 || c == 63 || c == 58
  else if c ∈ [36, 38, 43, 44, 47, 58, 59, 61, 63, 64] ∧ mode = .encodeQueryComponent then true
  else if c ∈ [36, 38, 43, 44, 47, 58, 59, 61, 63, 64] ∧ mode = .encodeFragment then false
  else if mode = .encodeFragment ∧ c ∈ [33, 40, 41, 42] then false
  else true

/-- The first loop of Go `url.unescape`: the error it returns, if any. The
library quotes the offending text in its messages; the quoting is left out. -/
def unescapeCheck (mode : encoding) : GoString → Option GoError
  | [] => none
  | 37 :: rest =>
    match rest with
    | h1 :: h2 :: rest2 =>
      if !(ishex h1 && ishex h2) then
        some (.lib (str "invalid URL escape " ++ [37, h1, h2]))
      else if mode = .encodeHost ∧ unhex h1 < 8 ∧ [37, h1, h2] ≠ str "%25" then
        some (.lib (str "invalid URL escape " ++ [37, h1, h2]))
      else if mode = .encodeZone ∧ [37, h1, h2] ≠ str "%25" ∧
          unhex h1 * 16 + unhex h2 ≠ 32 ∧
          shouldEscape (unhex h1 * 16 + unhex h2) .encodeHost then
        some (.lib (str "invalid URL escape " ++ [37, h1, h2]))
      else unescapeCheck mode rest2
    | _ => some (.lib (str "invalid URL escape " ++ (37 :: rest)))
  | c :: rest =>
    if (mode = .encodeHost ∨ mode = .encodeZone) ∧ c < 0x80 ∧ shouldEscape c .encodeHost then
      some (.lib (str "invalid character " ++ [c] ++ str " in host name"))
    else unescapeCheck mode rest

/-- The second loop of Go `url.unescape`: the unescaped text of a string that
passed the first loop. -/
def unescapeWrite (mode : encoding) : GoString → GoString
  | 37 :: h1 :: h2 :: rest => (unhex h1 * 16 + unhex h2) :: unescapeWrite mode rest
  | 43 :: rest => (if mode = .encodeQueryComponent then 32 else 43) :: unescapeWrite mode rest
  | c :: rest => c :: unescapeWrite mode rest
  | [] => []

/-- Go `url.unescape`. Where the source returns `s` itself (no escape and no
converted plus sign) the second loop returns the same bytes. -/
def unescape (s : GoString) (mode : encoding) : Except GoError GoString :=
  match unescapeCheck mode s with
  | some err => .error err
  | none => .ok (unescapeWrite mode s)

/-- The digit of `upperhex` for a value below 16. -/
def upperhex (n : Nat) : Nat := if n < 10 then 48 + n else 65 + (n - 10)

/-- Go `url.escape`. -/
def escape (s : GoString) (mode : encoding) : GoString :=
  s.flatMap (fun c =>
    if shouldEscape c mode then
      if c = 32 ∧ mode = .encodeQueryComponent then [43]
      else [37, upperhex (c / 16 % 16), upperhex (c % 16)]
    else [c])

/-- Go `url.validEncoded`. -/
def validEncoded (s : GoString) (mode : encoding) : Bool :=
  s.all (fun c =>
    if c ∈ [33, 36, 38, 39, 40, 41, 42, 43, 44, 59, 61, 58, 64] then true
    else if c ∈ [91, 93] then true
    else if c = 37 then true
    else !shouldEscape c mode)

/-- Go `url.Userinfo`. -/
structure Userinfo where
  username : GoString
  password : GoString
  passwordSet : Bool
  deriving DecidableEq

/-- Go `(*Userinfo).String`, for a non-nil receiver. -/
def Userinfo.String (u : Userinfo) : GoString :=
  let s := escape u.username .encodeUserPassword
  if u.passwordSet then s ++ [58] ++ escape u.password .encodeUserPassword else s

/-- Go `url.URL`. -/
structure URL where
  Scheme : GoString := []
  Opaque : GoString := []
  User : Option Userinfo := none
  Host : GoString := []
  Path : GoString := []
  RawPath : GoString := []
  OmitHost : Bool := false
  ForceQuery : Bool := false
  RawQuery : GoString := []
  Fragment : GoString := []
  RawFragment : GoString := []
  deriving DecidableEq

/-- Go `url.stringContainsCTLByte`. -/
def stringContainsCTLByte (s : GoString) : Bool :=
  s.any (fun b => b < 32 || b == 0x7f)

/-- Go `url.getScheme`, as a loop over the bytes left; `i` is the offset
reached and `rawURL` the whole input. -/
def getSchemeLoop (rawURL : GoString) : Nat → GoString → Except GoError (GoString × GoString)
  | _, [] => .ok ([], rawURL)
  | i, c :: rest =>
    if (97 ≤ c ∧ c ≤ 122) ∨ (65 ≤ c ∧ c ≤ 90) then getSchemeLoop rawURL (i + 1) rest
    else if (48 ≤ c ∧ c ≤ 57) ∨ c = 43 ∨ c = 45 ∨ c = 46 then
      if i = 0 then .ok ([], rawURL) else getSchemeLoop rawURL (i + 1) rest
    else if c = 58 then
      if i = 0 then .error (.errorString (str "missing protocol scheme"))
      else .ok (rawURL.take i, rest)
    else .ok ([], rawURL)

/-- Go `url.getScheme`: the scheme and the rest of the URL. -/
def getScheme (rawURL : GoString) : Except GoError (GoString × GoString) :=
  getSchemeLoop rawURL 0 rawURL

/-- Go `url.validOptionalPort`. -/
def validOptionalPort (port : GoString) : Bool :=
  match port with
  | [] => true
  | c :: rest => c == 58 && rest.all (fun b => 48 ≤ b && b ≤ 57)

/-- Go `url.validUserinfo`. The source ranges over runes; a byte of 0x80 or more
always belongs to a rune outside the allowed set, so the test is bytewise. -/
def validUserinfo (s : GoString) : Bool :=
  s.all (fun r =>
    isAlnum r ||
    decide (r ∈ [45, 46, 95, 58, 126, 33, 36, 38, 39, 40, 41, 42, 43, 44, 59, 61, 37, 64]))

/-- Go `url.parseHost`. -/
def parseHost (host : GoString) : Except GoError GoString :=
  if startsWith host [91] then
    match lastIndexByte 93 host with
    | none => .error (.errorString (str "missing ']' in host"))
    | some i =>
      let colonPort := host.drop (i + 1)
      if !validOptionalPort colonPort then
        .error (.lib (str "invalid port " ++ colonPort ++ str " after host"))
      else
        match indexOf (str "%25") (host.take i) with
        | some zone =>
          match unescape (host.take zone) .encodeHost with
          | .error err => .error err
          | .ok host1 =>
            match unescape ((host.take i).drop zone) .encodeZone with
            | .error err => .error err
            | .ok host2 =>
              match unescape (host.drop i) .encodeHost with
              | .error err => .error err
              | .ok host3 => .ok (host1 ++ host2 ++ host3)
        | none => unescape host .encodeHost
  else
    match lastIndexByte 58 host with
    | some i =>
      let colonPort := host.drop i
      if !validOptionalPort colonPort then
        .error (.lib (str "invalid port " ++ colonPort ++ str " after host"))
      else unescape host .encodeHost
    | none => unescape host .encodeHost

/-- Go `url.parseAuthority`: the user information and the host. -/
def parseAuthority (authority : GoString) : Except GoError (Option Userinfo × GoString) :=
  match lastIndexByte 64 authority with
  | none =>
    match parseHost authority with
    | .error err => .error err
    | .ok host => .ok (none, host)
  | some i =>
    match parseHost (authority.drop (i + 1)) with
    | .error err => .error err
    | .ok host =>
      let userinfo := authority.take i
      if !validUserinfo userinfo then .error (.errorString (str "net/url: invalid userinfo"))
      else if !(userinfo.contains 58) then
        match unescape userinfo .encodeUserPassword with
        | .error err => .error err
        | .ok username => .ok (some ⟨username, [], false⟩, host)
      else
        let c := Cut userinfo [58]
        match unescape c.1 .encodeUserPassword with
        | .error err => .error err
        | .ok username =>
          match unescape c.2.1 .encodeUserPassword with
          | .error err => .error err
          | .ok password => .ok (some ⟨username, password, true⟩, host)

/-- Go `(*URL).setPath`. -/
def URL.setPath (u : URL) (p : GoString) : Except GoError URL :=
  match unescape p .encodePath with
  | .error err => .error err
  | .ok path =>
    if p = escape path .encodePath then .ok { u with Path := path, RawPath := [] }
    else .ok { u with Path := path, RawPath := p }

/-- Go `(*URL).setFragment`. -/
def URL.setFragment (u : URL) (f : GoString) : Except GoError URL :=
  match unescape f .encodeFragment with
  | .error err => .error err
  | .ok frag =>
    if f = escape frag .encodeFragment then .ok { u with Fragment := frag, RawFragment := [] }
    else .ok { u with Fragment := frag, RawFragment := f }

/-- Go `(*URL).EscapedPath`. -/
def URL.EscapedPath (u : URL) : GoString :=
  if u.RawPath ≠ [] ∧ validEncoded u.RawPath .encodePath ∧
      unescape u.RawPath .encodePath = .ok u.Path then u.RawPath
  else if u.Path = str "*" then str "*"
  else escape u.Path .encodePath

/-- Go `(*URL).EscapedFragment`. -/
def URL.EscapedFragment (u : URL) : GoString :=
  if u.RawFragment ≠ [] ∧ validEncoded u.RawFragment .encodeFragment ∧
      unescape u.RawFragment .encodeFragment = .ok u.Fragment then u.RawFragment
  else escape u.Fragment .encodeFragment

/-- Go `url.parse` (the unexported worker of `url.Parse`). -/
def parseURL (rawURL : GoString) (viaRequest : Bool) : Except GoError URL :=
  if stringContainsCTLByte rawURL then
    .error (.errorString (str "net/url: invalid control character in URL"))
  else if rawURL = [] ∧ viaRequest then .error (.errorString (str "empty url"))
  else if rawURL = str "*" then .ok { Path := str "*" }
  else
    match getScheme rawURL with
    | .error err => .error err
    | .ok (scheme, rest0) =>
      let url : URL := { Scheme := ToLower scheme }
      let forced : Bool := rest0.getLast? = some 63 ∧ rest0.count 63 = 1
      let url : URL :=
        if forced then { url with ForceQuery := true }
        else { url with RawQuery := (Cut rest0 [63]).2.1 }
      let rest : GoString := if forced then rest0.dropLast else (Cut rest0 [63]).1
      if !startsWith rest [47] ∧ url.Scheme ≠ [] then .ok { url with Opaque := rest }
      else if !startsWith rest [47] ∧ viaRequest then
        .error (.errorString (str "invalid URI for request"))
      else if !startsWith rest [47] ∧ (Cut rest [47]).1.contains 58 then
        .error (.errorString (str "first path segment in URL cannot contain colon"))
      else if (url.Scheme ≠ [] ∨ (!viaRequest ∧ !startsWith rest (str "///"))) ∧
          startsWith rest (str "//") then
        let authority0 := rest.drop 2
        let authority :=
          match indexOf [47] authority0 with
          | some i => authority0.take i
          | none => authority0
        let rest1 : GoString :=
          match indexOf [47] authority0 with
          | some i => authority0.drop i
          | none => []
        match parseAuthority authority with
        | .error err => .error err
        | .ok (user, host) => ({ url with User := user, Host := host } : URL).setPath rest1
      else if url.Scheme ≠ [] ∧ startsWith rest [47] then
        ({ url with OmitHost := true } : URL).setPath rest
      else url.setPath rest

/-- Go `url.Parse`. A failure is a `*url.Error` that wraps the cause; the
library quotes the URL in its message, the quoting is left out. -/
def Parse (rawURL : GoString) : Except GoError URL :=
  let c := Cut rawURL [35]
  match parseURL c.1 false with
  | .error err => .error (.wrapError (str "parse " ++ c.1 ++ str ": " ++ err.Error) err)
  | .ok url =>
    if c.2.1 = [] then .ok url
    else
      match url.setFragment c.2.1 with
      | .error err => .error (.wrapError (str "parse " ++ rawURL ++ str ": " ++ err.Error) err)
      | .ok url1 => .ok url1

/-- Go `(*URL).String`. -/
def URL.String (u : URL) : GoString :=
  let buf : GoString := if u.Scheme ≠ [] then u.Scheme ++ [58] else []
  let buf : GoString :=
    if u.Opaque ≠ [] then buf ++ u.Opaque
    else
      let buf : GoString :=
        if u.Scheme ≠ [] ∨ u.Host ≠ [] ∨ u.User ≠ none then
          if u.OmitHost ∧ u.Host = [] ∧ u.User = none then buf
          else
            let buf : GoString :=
              if u.Host ≠ [] ∨ u.Path ≠ [] ∨ u.User ≠ none then buf ++ str "//" else buf
            let buf : GoString :=
              match u.User with
              | some ui => buf ++ ui.String ++ [64]
              | none => buf
            if u.Host ≠ [] then buf ++ escape u.Host .encodeHost else buf
        else buf
      let path := u.EscapedPath
      let buf : GoString :=
        if path ≠ [] ∧ path.head? ≠ some 47 ∧ u.Host ≠ [] then buf ++ [47] else buf
      let buf : GoString :=
        if buf = [] ∧ (Cut path [47]).1.contains 58 then buf ++ str "./" else buf
      buf ++ path
  let buf : GoString :=
    if u.ForceQuery ∨ u.RawQuery ≠ [] then buf ++ [63] ++ u.RawQuery else buf
  if u.Fragment ≠ [] then buf ++ [35] ++ u.EscapedFragment else buf

/-- Go `(*URL).IsAbs`: the URL has a scheme. -/
def URL.IsAbs (u : URL) : Bool := u.Scheme != []

/-! ## `encoding/json`

The decoder is modelled by what it computes for the one target type of the
program, `jwtResponsePayload`: `json.NewDecoder(body).Decode(&v)` reads the
first JSON value of the stream, checks all of it for well-formedness, and then
stores the members of an object whose key matches the field tag. -/

/-- Go `io.EOF`. -/
def EOF : GoError := .errorString (str "EOF")

/-- Go `io.ErrUnexpectedEOF`: the input ended inside a JSON value. -/
def ErrUnexpectedEOF : GoError := .errorString (str "unexpected EOF")

/-- Go `*json.SyntaxError`: a byte that cannot continue a JSON value. -/
def SyntaxError : GoError := .lib (str "json: invalid character in JSON input")

/-- Go `*json.UnmarshalTypeError`: a JSON value of kind `value` where the Go
type needs another kind. -/
def UnmarshalTypeError (value : String) : GoError :=
  .lib (str "json: cannot unmarshal " ++ str value ++ str " into Go value")

/-- The nesting limit `maxNestingDepth` of the scanner. -/
def maxNestingDepth : Nat := 10000

/-- Go `json.isSpace`. -/
def isSpace (c : Nat) : Bool := c ≤ 32 && (c == 32 || c == 9 || c == 13 || c == 10)

/-- Skip JSON white space. -/
def skipSpace (s : GoString) : GoString := s.dropWhile isSpace

/-- Whether a byte is a decimal digit. -/
def isDigit (c : Nat) : Bool := 48 ≤ c && c ≤ 57

/-- Add bytes in front of the text a scanning step has decoded. -/
def emit (p : GoString) (r : Except GoError (GoString × GoString)) :
    Except GoError (GoString × GoString) :=
  match r with
  | .error err => .error err
  | .ok (v, rest) => .ok (p ++ v, rest)

/-- The four hexadecimal digits after a backslash and `u`: their value and the
input after them. -/
def getu4 : GoString → Except GoError (Nat × GoString)
  | h1 :: h2 :: h3 :: h4 :: rest =>
    if ishex h1 && ishex h2 && ishex h3 && ishex h4 then
      .ok (unhex h1 * 4096 + unhex h2 * 256 + unhex h3 * 16 + unhex h4, rest)
    else .error SyntaxError
  | s => if s.all ishex then .error ErrUnexpectedEOF else .error SyntaxError

/-- The second half of a UTF-16 surrogate pair written as an escape right after
the first half `r1` (Go `utf16.DecodeRune` inside `unquote`): the rune of the
pair and the input after the second escape. -/
def surrogatePair (r1 : Nat) : GoString → Option (Nat × GoString)
  | 92 :: 117 :: rest =>
    match getu4 rest with
    | .ok (r2, rest1) =>
      if 0xD800 ≤ r1 ∧ r1 < 0xDC00 ∧ 0xDC00 ≤ r2 ∧ r2 < 0xE000 then
        some ((r1 - 0xD800) * 1024 + (r2 - 0xDC00) + 0x10000, rest1)
      else none
    | .error _ => none
  | _ => none

/-- The byte a one-letter escape stands for. -/
def unescapeByte (e : Nat) : Option Nat :=
  if e = 34 then some 34
  else if e = 92 then some 92
  else if e = 47 then some 47
  else if e = 98 then some 8
  else if e = 102 then some 12
  else if e = 110 then some 10
  else if e = 114 then some 13
  else if e = 116 then some 9
  else none

/-- A JSON string from just after its opening quote: the text it denotes (Go
`json.unquote`: escapes resolved, invalid UTF-8 and lone surrogates replaced by
U+FFFD) and the input after the closing quote. The first argument bounds the
number of steps; the length of the input is always enough. -/
def stringBody : Nat → GoString → Except GoError (GoString × GoString)
  | 0, _ => .error ErrUnexpectedEOF
  | _ + 1, [] => .error ErrUnexpectedEOF
  | n + 1, c :: rest =>
    if c = 34 then .ok ([], rest)
    else if c = 92 then
      match rest with
      | [] => .error ErrUnexpectedEOF
      | e :: rest1 =>
        if e = 117 then
          match getu4 rest1 with
          | .error err => .error err
          | .ok (rr, rest2) =>
            if 0xD800 ≤ rr ∧ rr < 0xE000 then
              match surrogatePair rr rest2 with
              | some (dec, rest3) => emit (EncodeRune dec) (stringBody n rest3)
              | none => emit (EncodeRune RuneError) (stringBody n rest2)
            else emit (EncodeRune rr) (stringBody n rest2)
        else
          match unescapeByte e with
          | some b => emit [b] (stringBody n rest1)
          | none => .error SyntaxError
    else if c < 0x20 then .error SyntaxError
    else if c < 0x80 then emit [c] (stringBody n rest)
    else
      emit (EncodeRune (DecodeRune (c :: rest)).1)
        (stringBody n (rest.drop ((DecodeRune (c :: rest)).2 - 1)))

/-- The rest of a literal name (`true`, `false`, `null`) after its first letter. -/
def literal : GoString → GoString → Except GoError GoString
  | [], s => .ok s
  | _ :: _, [] => .error ErrUnexpectedEOF
  | l :: ls, c :: s => if c = l then literal ls s else .error SyntaxError

/-- The exponent of a number, after its `e` or `E`. -/
def numberExp (s : GoString) : Except GoError GoString :=
  let s1 : GoString :=
    match s with
    | c :: r => if c = 43 ∨ c = 45 then r else s
    | [] => s
  match s1 with
  | [] => .error ErrUnexpectedEOF
  | c :: r => if isDigit c then .ok (r.dropWhile isDigit) else .error SyntaxError

/-- The fraction and exponent of a number, after its integer part. -/
def numberFrac (s : GoString) : Except GoError GoString :=
  match s with
  | [] => .ok s
  | c :: r =>
    if c = 46 then
      match r with
      | [] => .error ErrUnexpectedEOF
      | d :: r1 =>
        if isDigit d then
          match r1.dropWhile isDigit with
          | [] => .ok []
          | e :: r2 => if e = 101 ∨ e = 69 then numberExp r2 else .ok (e :: r2)
        else .error SyntaxError
    else if c = 101 ∨ c = 69 then numberExp r
    else .ok s

/-- A JSON number: the input after it. -/
def scanNumber (s : GoString) : Except GoError GoString :=
  let s1 : GoString :=
    match s with
    | c :: r => if c = 45 then r else s
    | [] => s
  match s1 with
  | [] => .error ErrUnexpectedEOF
  | c :: r =>
    if c = 48 then numberFrac r
    else if 49 ≤ c ∧ c ≤ 57 then numberFrac (r.dropWhile isDigit)
    else .error SyntaxError

/-- An object key and the colon after it, white space skipped: the key's text
and the input after the colon. -/
def objectKey (s : GoString) : Except GoError (GoString × GoString) :=
  match skipSpace s with
  | [] => .error ErrUnexpectedEOF
  | c :: rest =>
    if c = 34 then
      match stringBody rest.length rest with
      | .error err => .error err
      | .ok (key, rest1) =>
        match skipSpace rest1 with
        | [] => .error ErrUnexpectedEOF
        | d :: rest2 => if d = 58 then .ok (key, rest2) else .error SyntaxError
    else .error SyntaxError

/-- The containers an unfinished value is nested in (the scanner's
`parseState` stack). -/
inductive Container
  | object
  | array
  deriving DecidableEq

/-- Check one JSON value and return the input after it. `stack` lists the
open containers inside the value, `base` counts those around it, and
`expectValue` tells whether a value must begin here or one has just ended. The
first argument bounds the number of steps; one more than the length of the
input is always enough. -/
def scan : Nat → Nat → List Container → Bool → GoString → Except GoError GoString
  | 0, _, _, _, _ => .error ErrUnexpectedEOF
  | n + 1, base, stack, true, s =>
    match skipSpace s with
    | [] => .error ErrUnexpectedEOF
    | c :: rest =>
      if c = 123 then
        if maxNestingDepth < base + stack.length + 1 then .error SyntaxError
        else
          match skipSpace rest with
          | [] => .error ErrUnexpectedEOF
          | d :: rest1 =>
            if d = 125 then scan n base stack false rest1
            else
              match objectKey rest with
              | .error err => .error err
              | .ok (_, rest2) => scan n base (.object :: stack) true rest2
      else if c = 91 then
        if maxNestingDepth < base + stack.length + 1 then .error SyntaxError
        else
          match skipSpace rest with
          | [] => .error ErrUnexpectedEOF
          | d :: rest1 =>
            if d = 93 then scan n base stack false rest1
            else scan n base (.array :: stack) true rest
      else if c = 34 then
        match stringBody rest.length rest with
        | .error err => .error err
        | .ok (_, rest1) => scan n base stack false rest1
      else if c = 45 ∨ isDigit c then
        match scanNumber (c :: rest) with
        | .error err => .error err
        | .ok rest1 => scan n base stack false rest1
      else if c = 116 then
        match literal (str "rue") rest with
        | .error err => .error err
        | .ok rest1 => scan n base stack false rest1
      else if c = 102 then
        match literal (str "alse") rest with
        | .error err => .error err
        | .ok rest1 => scan n base stack false rest1
      else if c = 110 then
        match literal (str "ull") rest with
        | .error err => .error err
        | .ok rest1 => scan n base stack false rest1
      else .error SyntaxError
  | n + 1, base, stack, false, s =>
    match stack with
    | [] => .ok s
    | .object :: stack1 =>
      match skipSpace s with
      | [] => .error ErrUnexpectedEOF
      | c :: rest =>
        if c = 44 then
          match objectKey rest with
          | .error err => .error err
          | .ok (_, rest1) => scan n base (.object :: stack1) true rest1
        else if c = 125 then scan n base stack1 false rest
        else .error SyntaxError
    | .array :: stack1 =>
      match skipSpace s with
      | [] => .error ErrUnexpectedEOF
      | c :: rest =>
        if c = 44 then scan n base (.array :: stack1) true rest
        else if c = 93 then scan n base stack1 false rest
        else .error SyntaxError

/-- Go `json.foldRune` on the runes that matter for an ASCII field name: of the
runes outside ASCII only U+017F and U+212A fold to an ASCII letter; every other
one folds to a rune outside ASCII and is left as it is. -/
def foldRune (r : Nat) : Nat :=
  if r = 0x17F then 83 else if r = 0x212A then 75 else r

/-- Go `json.foldName`: the case-folded form of an object key. The first
argument bounds the number of steps; the length of the key is enough. -/
def foldName : Nat → GoString → GoString
  | 0, _ => []
  | _ + 1, [] => []
  | n + 1, c :: rest =>
    if c < 0x80 then (if 97 ≤ c ∧ c ≤ 122 then c - 32 else c) :: foldName n rest
    else
      EncodeRune (foldRune (DecodeRune (c :: rest)).1) ++
        foldName n (rest.drop ((DecodeRune (c :: rest)).2 - 1))

/-- The payload type `jwtResponsePayload` (client.go lines 148-150). -/
structure jwtResponsePayload where
  Token : GoString
  deriving DecidableEq

/-- Whether an object key selects the field tagged `json:"token"`: an exact
match, or else a match of the folded names. -/
def fieldMatch (key : GoString) : Bool :=
  key == str "token" || foldName key.length key == str "TOKEN"

/-- Store a member value, whose text starts at `c :: rest`, in the string field
`Token`: a string is stored, `null` changes nothing, any other kind is a type
error, of which the decoder keeps the first. -/
def storeToken (c : Nat) (rest : GoString) (v : jwtResponsePayload) (saved : Option GoError) :
    jwtResponsePayload × Option GoError :=
  if c = 34 then
    match stringBody rest.length rest with
    | .ok (s, _) => ({ v with Token := s }, saved)
    | .error _ => (v, saved)
  else if c = 110 then (v, saved)
  else
    let kind : String :=
      if c = 123 then "object" else if c = 91 then "array"
      else if c = 116 ∨ c = 102 then "bool" else "number"
    (v, if saved.isSome then saved else some (UnmarshalTypeError kind))

/-- The members of the top-level object, from the start of a key to the closing
brace. A malformed member ends the decoding at once; a type error is kept and
returned when the object has been read to its end. -/
def objectMembers : Nat → GoString → jwtResponsePayload → Option GoError →
    Except GoError jwtResponsePayload
  | 0, _, _, _ => .error ErrUnexpectedEOF
  | n + 1, s, v, saved =>
    match objectKey s with
    | .error err => .error err
    | .ok (key, rest) =>
      match skipSpace rest with
      | [] => .error ErrUnexpectedEOF
      | c :: rest1 =>
        match scan (rest.length + 1) 1 [] true rest with
        | .error err => .error err
        | .ok rest2 =>
          let r := if fieldMatch key then storeToken c rest1 v saved else (v, saved)
          match skipSpace rest2 with
          | [] => .error ErrUnexpectedEOF
          | d :: rest3 =>
            if d = 44 then objectMembers n rest3 r.1 r.2
            else if d = 125 then
              match r.2 with
              | some err => .error err
              | none => .ok r.1
            else .error SyntaxError

/-- The call `json.NewDecoder(body).Decode(&jwtResp)` of client.go line 141, for
the zero `jwtResp`: the decoded payload or the decoder's error. Input after the
first JSON value is not looked at. -/
def Decode (body : GoString) : Except GoError jwtResponsePayload :=
  match skipSpace body with
  | [] => .error EOF
  | c :: rest =>
    if c = 123 then
      match skipSpace rest with
      | [] => .error ErrUnexpectedEOF
      | d :: _ =>
        if d = 125 then .ok { Token := [] }
        else objectMembers (rest.length + 1) rest { Token := [] } none
    else
      match scan (rest.length + 2) 0 [] true (c :: rest) with
      | .error err => .error err
      | .ok _ =>
        if c = 110 then .ok { Token := [] }
        else
          .error (UnmarshalTypeError
            (if c = 91 then "array" else if c = 34 then "string"
             else if c = 116 ∨ c = 102 then "bool" else "number"))

/-! ## `context`, `time` and `net/http` -/

/-- A non-nil `context.Context`, as far as the program can tell contexts
apart: whether it has been cancelled. The nil context is `none`. -/
structure Context where
  cancelled : Bool
  deriving DecidableEq

/-- Go `*http.Request`, the fields that `http.NewRequestWithContext` sets. A
nil body is `none`; `Header` lists the header fields with their values. -/
structure Request where
  Method : GoString
  URL : URL
  Header : List (GoString × List GoString)
  Body : Option GoString
  Host : GoString
  ctx : Context
  deriving DecidableEq

/-- Go `*http.Response`: the status code and the bytes of the body. -/
structure Response where
  StatusCode : Int
  Body : GoString
  deriving DecidableEq

/-- Go `http.RoundTripper`, taken as the whole exchange it stands for: the
response or the error that sending a request yields. -/
abbrev RoundTripper := Request → Except GoError Response

/-- Go `time.Second`, in nanoseconds (the unit of `time.Duration`). -/
def Second : Int := 1000000000

/-- Go `http.Client`, the fields the program sets or leaves at zero. A nil
`Transport` means `http.DefaultTransport`. -/
structure HTTPClient where
  Transport : Option RoundTripper
  Timeout : Int

/-- Go `(*http.Client).Do`: the exchange is carried out by the transport of the
client, `http.DefaultTransport` when it has none. -/
def HTTPClient.Do (DefaultTransport : RoundTripper) (c : HTTPClient) (req : Request) :
    Except GoError Response :=
  match c.Transport with
  | some rt => rt req
  | none => DefaultTransport req

/-- Go `http.MethodGet`. -/
def MethodGet : GoString := str "GET"

/-- Go `http.StatusOK`. -/
def StatusOK : Int := 200

/-- Go `http.validMethod`: not empty, and made of token bytes only. -/
def validMethod (method : GoString) : Bool :=
  method != [] && method.all (fun c =>
    isAlnum c || decide (c ∈ [33, 35, 36, 37, 38, 39, 42, 43, 45, 46, 94, 95, 96, 124, 126]))

/-- Go `http.removeEmptyPort`. -/
def removeEmptyPort (host : GoString) : GoString :=
  let hasPort : Bool :=
    match lastIndexByte 58 host, lastIndexByte 93 host with
    | some i, some j => j < i
    | some _, none => true
    | none, _ => false
  if hasPort ∧ host.getLast? = some 58 then host.dropLast else host

/-- Go `http.NewRequestWithContext`. The checks are made in the order of the
library: the method, then the context, which must not be nil, then the URL.
Whether the context is cancelled is not looked at. -/
def NewRequestWithContext (ctx : Option Context) (method url : GoString)
    (body : Option GoString) : Except GoError Request :=
  let method := if method = [] then str "GET" else method
  if !validMethod method then .error (.lib (str "net/http: invalid method " ++ method))
  else
    match ctx with
    | none => .error (.errorString (str "net/http: nil Context"))
    | some ctx =>
      match Parse url with
      | .error err => .error err
      | .ok u =>
        .ok { Method := method
              URL := { u with Host := removeEmptyPort u.Host }
              Header := []
              Body := body
              Host := removeEmptyPort u.Host
              ctx := ctx }

/-- Go `(http.Header).Get` on the header fields of a request: the first value
of the field, `none` when the field is absent (Go returns the empty string). -/
def Request.headerGet (req : Request) (key : GoString) : Option GoString :=
  match req.Header.find? (fun kv => kv.1 == key) with
  | some kv => kv.2.head?
  | none => none

/-- What a call does to the world around it, in order. -/
inductive Event
  | stdout (text : GoString)
  | stderr (text : GoString)
  | Do (req : Request)
  | decodeBody (body : GoString)
  | closeBody
  deriving DecidableEq

/-! ## Package `auth` (auth/client.go) -/

/-- The function value `w` (client.go line 14). -/
def w : GoString → List GoError → GoError := Errorf

/-- The struct `clientOpts` (client.go lines 18-24); a nil `client` is `none`. -/
structure clientOpts where
  baseURL : GoString
  username : GoString
  password : GoString
  client : Option HTTPClient

/-- The type `ClientOpt` (client.go line 16): a function that updates the
options it is given (Go passes a pointer; here the function returns the updated
options). The nil function value is left out. -/
abbrev ClientOpt := clientOpts → clientOpts

/-- `ServiceURL` (client.go lines 26-30). -/
def ServiceURL (url : GoString) : ClientOpt :=
  fun co => { co with baseURL := url }

/-- `BasicAuth` (client.go lines 32-37). -/
def BasicAuth (username password : GoString) : ClientOpt :=
  fun co => { co with username := username, password := password }

/-- `WithHTTPClient` (client.go lines 39-43). -/
def WithHTTPClient (client : Option HTTPClient) : ClientOpt :=
  fun co => { co with client := client }

/-- The struct `client` (client.go lines 45-47), which embeds `clientOpts`. -/
structure client extends clientOpts

/-- `ErrInvalidClientOpts` (client.go line 49). -/
def ErrInvalidClientOpts : GoError := .errorString (str "invalid client opts")

/-- `ErrNoUsernameProvided` (client.go line 50). -/
def ErrNoUsernameProvided : GoError :=
  Errorf (str "%w: no username provided") [ErrInvalidClientOpts]

/-- `ErrNoPasswordProvided` (client.go line 51). -/
def ErrNoPasswordProvided : GoError :=
  Errorf (str "%w: no password provided") [ErrInvalidClientOpts]

/-- `ErrInvalidURLProvided` (client.go line 52). -/
def ErrInvalidURLProvided : GoError := .errorString (str "invalid url")

/-- The loop of `clean` (client.go lines 103-105): `s` is what is left of the
string to range over, `b` the bytes appended so far; each turn decodes one rune
`c` and appends `byte(c)`. The first argument bounds the number of turns. -/
def cleanLoop : Nat → GoString → GoString → GoString
  | 0, _, b => b
  | _ + 1, [], b => b
  | n + 1, c0 :: t, b =>
    cleanLoop n ((c0 :: t).drop (DecodeRune (c0 :: t)).2) (b ++ [(DecodeRune (c0 :: t)).1 % 256])

/-- `clean` (client.go lines 101-107). Every turn of the loop consumes at least
one byte, so as many turns as `s` has bytes are enough. -/
def clean (s : GoString) : GoString := cleanLoop s.length s []

/-- The options after `NewClient` has applied `opts` to the empty configuration
(client.go lines 55-59). -/
def applyOpts (opts : List ClientOpt) : clientOpts :=
  opts.foldl (fun cfg opt => opt cfg)
    { baseURL := [], username := [], password := [], client := none }

/-- `NewClient` (client.go lines 54-96). -/
def NewClient (opts : List ClientOpt) : Except GoError client :=
  let cfg := applyOpts opts
  if cfg.username = [] then .error ErrNoUsernameProvided
  else if cfg.password = [] then .error ErrNoPasswordProvided
  else if cfg.baseURL = [] then .error (w (str "%w: not provided") [ErrInvalidURLProvided])
  else
    match Parse (clean cfg.baseURL) with
    | .error err => .error (w (str "%w: %w") [ErrInvalidURLProvided, err])
    | .ok u =>
      let cfg : clientOpts := { cfg with baseURL := u.String }
      let cfg : clientOpts :=
        match cfg.client with
        | none => { cfg with client := some { Transport := none, Timeout := 60 * Second } }
        | some _ => cfg
      .ok { toclientOpts := cfg }

/-- `ErrUnableToFormRequest` (client.go line 109). -/
def ErrUnableToFormRequest : GoError := .errorString (str "unable to form request")

/-- `ErrFailedToPerformRequest` (client.go line 110). -/
def ErrFailedToPerformRequest : GoError := .errorString (str "failed to perform request")

/-- `ErrMalformedServerData` (client.go line 111). -/
def ErrMalformedServerData : GoError := .errorString (str "malformed server data")

/-- What a call of `RequestJWT` returns, the token and the error (`none` for
nil), together with the events of the call. -/
abbrev JWTResult := (GoString × Option GoError) × List Event

/-- `RequestJWT` (client.go lines 124-146). The result is `none` when the call
panics, which it does on a client whose HTTP client is nil. `DefaultTransport`
is the behaviour of `http.DefaultTransport`. -/
def RequestJWT (DefaultTransport : RoundTripper) (c : client) (ctx : Option Context) :
    Option JWTResult :=
  let out : List Event := [.stdout (str "Making request to " ++ c.baseURL ++ str "\n")]
  match NewRequestWithContext ctx MethodGet c.baseURL none with
  | .error err => some (([], some (w (str "%w: %w") [ErrUnableToFormRequest, err])), out)
  | .ok req =>
    match c.client with
    | none => none
    | some httpClient =>
      match httpClient.Do DefaultTransport req with
      | .error err =>
        some (([], some (w (str "%w: %w") [ErrFailedToPerformRequest, err])), out ++ [.Do req])
      | .ok resp =>
        if resp.StatusCode ≠ StatusOK then
          some (([], some (.ErrRequestFailure resp.StatusCode)), out ++ [.Do req, .closeBody])
        else
          match Decode resp.Body with
          | .error err =>
            some (([], some (w (str "%w: %w") [ErrMalformedServerData, err])),
              out ++ [.Do req, .decodeBody resp.Body, .closeBody])
          | .ok jwtResp =>
            some ((jwtResp.Token, none), out ++ [.Do req, .decodeBody resp.Body, .closeBody])

/-! ## Package `main` (main.go) -/

/-- The default value declared for the flag `username` (main.go line 13). -/
def username : GoString := []

/-- The default value declared for the flag `password` (main.go line 14). -/
def password : GoString := []

/-- The default value declared for the flag `override-url` (main.go line 15).
The string literal of the source is not empty: it holds the 22 runes listed
here, all in the range U+E0100 to U+E01EF (variation selectors, which editors
do not display), in UTF-8. -/
def overrideURL : GoString :=
  utf8 [0xE0168, 0xE0174, 0xE0174, 0xE0170, 0xE0173, 0xE013A, 0xE012F, 0xE012F,
    0xE0165, 0xE0176, 0xE0169, 0xE016C, 0xE0164, 0xE016F, 0xE016D, 0xE0161,
    0xE0169, 0xE016E, 0xE012E, 0xE016C, 0xE0161, 0xE0162]

/-- The variable `defaultURL` of `run` when `NewClient` is called (main.go
lines 18-21). -/
def defaultURL (override : GoString) : GoString :=
  if override ≠ [] then override else str "http://provider.cluster.local"

/-- `run` (main.go lines 17-39): the error returned (`none` for nil) and the
events of the call; `none` when the call panics. -/
def run (DefaultTransport : RoundTripper) (ctx : Option Context) (user pass override : GoString) :
    Option (Option GoError × List Event) :=
  match NewClient [BasicAuth user pass, ServiceURL (defaultURL override)] with
  | .error err => some (some err, [])
  | .ok client =>
    match RequestJWT DefaultTransport client ctx with
    | none => none
    | some ((_, some err), events) => some (some err, events)
    | some ((tkn, none), events) => some (none, events ++ [.stdout (tkn ++ str "\n")])

/-- `main` (main.go lines 41-51): the exit status and the events of the process.
Each argument is the value given for a flag on the command line, `none` when
the flag is not given, in which case the flag holds its declared default. The
context made by `signal.NotifyContext` is not nil and not yet cancelled. -/
def main (DefaultTransport : RoundTripper)
    (usernameFlag passwordFlag overrideFlag : Option GoString) : Option (Nat × List Event) :=
  match run DefaultTransport (some { cancelled := false }) (usernameFlag.getD username)
      (passwordFlag.getD password) (overrideFlag.getD overrideURL) with
  | none => none
  | some (some err, events) => some (1, events ++ [.stderr (err.Error ++ str "\n")])
  | some (none, events) => some (0, events)

/-! ## Specification vocabulary and sample values -/

/-- The runes that `for _, c := range s` yields, in order; an invalid byte
yields `RuneError`. The first argument bounds the number of runes. -/
def rangeLoop : Nat → GoString → List Nat
  | 0, _ => []
  | _ + 1, [] => []
  | n + 1, c0 :: t =>
    (DecodeRune (c0 :: t)).1 :: rangeLoop n ((c0 :: t).drop (DecodeRune (c0 :: t)).2)

/-- The characters of a Go string: the runes that ranging over it yields. -/
def runes (s : GoString) : List Nat := rangeLoop s.length s

/-- An option made by `BasicAuth` or `ServiceURL`: it leaves the HTTP client of
the options as it is. -/
def keepsClient (o : ClientOpt) : Prop :=
  (∃ u p, o = BasicAuth u p) ∨ (∃ url, o = ServiceURL url)

/-- The requests handed to the HTTP client, in order. -/
def sentRequests : List Event → List Request
  | [] => []
  | .Do req :: rest => req :: sentRequests rest
  | _ :: rest => sentRequests rest

/-- Go `context.Canceled`. -/
def Canceled : GoError := .errorString (str "context canceled")

/-- A transport that behaves as `http.Transport` does for a cancelled context,
failing with `context.Canceled`, and otherwise answers with the given response. -/
def answering (resp : Response) : RoundTripper :=
  fun req => if req.ctx.cancelled then .error Canceled else .ok resp

/-- The options of the test "valid opts with default http client". -/
def sampleOpts : List ClientOpt :=
  [BasicAuth (str "user") (str "pass"), ServiceURL (str "http://provider.cluster.local")]

/-- The client that `NewClient sampleOpts` returns. -/
def builtClient : client :=
  { baseURL := str "http://provider.cluster.local", username := str "user",
    password := str "pass", client := some { Transport := none, Timeout := 60 * Second } }

/-- The client of the tests of `RequestJWT`: the sample options and an
`http.Client` with the given transport and no timeout. -/
def sampleClient (transport : Option RoundTripper) : client :=
  { baseURL := str "http://provider.cluster.local", username := str "user",
    password := str "pass", client := some { Transport := transport, Timeout := 0 } }

/-- The request that `RequestJWT` forms for the sample clients. -/
def sampleRequest (ctx : Context) : Request :=
  { Method := str "GET"
    URL := { Scheme := str "http", Host := str "provider.cluster.local" }
    Header := []
    Body := none
    Host := str "provider.cluster.local"
    ctx := ctx }

/-- The value of a hexadecimal digit, as JSON reads it. -/
def hexDigit (c : Nat) : Option Nat :=
  if 48 ≤ c ∧ c ≤ 57 then some (c - 48)
  else if 97 ≤ c ∧ c ≤ 102 then some (c - 87)
  else if 65 ≤ c ∧ c ≤ 70 then some (c - 55)
  else none

/-- The number written by four hexadecimal digits. -/
def hex4 (h1 h2 h3 h4 : Nat) : Option Nat :=
  match hexDigit h1, hexDigit h2, hexDigit h3, hexDigit h4 with
  | some a, some b, some c, some d => some (a * 4096 + b * 256 + c * 16 + d)
  | _, _, _, _ => none

/-- JSON string encoding (RFC 8259, section 7): `JSONChars q s` says that the
bytes `q`, put between two quotation marks, are a JSON string that denotes the
code points `s`. A code point is written as itself in UTF-8 (not a quotation
mark, a backslash or a control character), as a two-character escape, as a
`\u` escape with four hexadecimal digits, or, above U+FFFF, as a pair of `\u`
escapes for its UTF-16 surrogates. -/
inductive JSONChars : GoString → List Nat → Prop
  | nil : JSONChars [] []
  | plain (r : Nat) (q : GoString) (s : List Nat) :
      0x20 ≤ r → r ≠ 0x22 → r ≠ 0x5C → r < 0xD800 ∨ (0xDFFF < r ∧ r < 0x110000) →
      JSONChars q s → JSONChars (EncodeRune r ++ q) (r :: s)
  | short (e b : Nat) (q : GoString) (s : List Nat) :
      (e, b) ∈ [(34, 34), (92, 92), (47, 47), (98, 8), (102, 12), (110, 10), (114, 13), (116, 9)] →
      JSONChars q s → JSONChars (92 :: e :: q) (b :: s)
  | hex (h1 h2 h3 h4 r : Nat) (q : GoString) (s : List Nat) :
      hex4 h1 h2 h3 h4 = some r → r < 0xD800 ∨ 0xDFFF < r →
      JSONChars q s → JSONChars (92 :: 117 :: h1 :: h2 :: h3 :: h4 :: q) (r :: s)
  | pair (h1 h2 h3 h4 l1 l2 l3 l4 hi lo : Nat) (q : GoString) (s : List Nat) :
      hex4 h1 h2 h3 h4 = some hi → hex4 l1 l2 l3 l4 = some lo →
      0xD800 ≤ hi → hi ≤ 0xDBFF → 0xDC00 ≤ lo → lo ≤ 0xDFFF →
      JSONChars q s →
      JSONChars (92 :: 117 :: h1 :: h2 :: h3 :: h4 :: 92 :: 117 :: l1 :: l2 :: l3 :: l4 :: q)
        (((hi - 0xD800) * 1024 + (lo - 0xDC00) + 0x10000) :: s)

/-- JSON white space: only spaces, tabs, line feeds and carriage returns. -/
abbrev JSONSpace (ws : GoString) : Prop := ∀ b ∈ ws, b = 32 ∨ b = 9 ∨ b = 10 ∨ b = 13

/-- A response body that is the JSON object with the one member "token",
whose value is the JSON string with the bytes `q` between its quotation marks;
`w0` to `w4` are the white space around the tokens and `tail` is what follows
the object. -/
def tokenObject (w0 w1 w2 w3 w4 q tail : GoString) : GoString :=
  w0 ++ 123 :: (w1 ++ 34 :: (str "token" ++ 34 :: (w2 ++ 58 :: (w3 ++ 34 :: (q ++ 34 ::
    (w4 ++ 125 :: tail))))))

/-- A response body whose token is written with white space around the JSON
tokens, a `\u` escape, an escaped quotation mark, a surrogate pair and a
character in UTF-8, followed by a line feed. -/
def escapedBody : GoString :=
  str " \x7b \"token\" : \" a\\u00e9\\\"\\ud83d\\ude00\u00e9 \" \x7d\n"

/-! ## Lemmas on `unicode/utf8` and `clean` -/

theorem DecodeRune_two (s0 s1 : Nat) (rest : GoString) (h0 : 0xC2 ≤ s0) (h0' : s0 < 0xE0)
    (h1 : 0x80 ≤ s1) (h1' : s1 ≤ 0xBF) :
    DecodeRune (s0 :: s1 :: rest) = (s0 % 32 * 64 + s1 % 64, 2) := by
  have a1 : ¬ s0 < 0x80 := by omega
  have a2 : ¬ (s0 < 0xC2 ∨ 0xF4 < s0) := by omega
  have w : runeWidth s0 = 2 := by simp [runeWidth, h0']
  have lo : acceptLo s0 = 0x80 := by unfold acceptLo; split_ifs <;> omega
  have hi : acceptHi s0 = 0xBF := by unfold acceptHi; split_ifs <;> omega
  have a7 : ¬ (s1 < 0x80 ∨ 0xBF < s1) := by omega
  simp [DecodeRune, a1, a2, w, lo, hi, a7]

theorem DecodeRune_three (s0 s1 s2 : Nat) (rest : GoString) (h0 : 0xE0 ≤ s0) (h0' : s0 < 0xF0)
    (h1 : acceptLo s0 ≤ s1) (h1' : s1 ≤ acceptHi s0) (h2 : 0x80 ≤ s2) (h2' : s2 ≤ 0xBF) :
    DecodeRune (s0 :: s1 :: s2 :: rest) = (s0 % 16 * 4096 + s1 % 64 * 64 + s2 % 64, 3) := by
  have a1 : ¬ s0 < 0x80 := by omega
  have a2 : ¬ (s0 < 0xC2 ∨ 0xF4 < s0) := by omega
  have w : runeWidth s0 = 3 := by unfold runeWidth; split_ifs <;> omega
  have a7 : ¬ (s2 < 0x80 ∨ 0xBF < s2) := by omega
  have a8 : ¬ (s1 < acceptLo s0 ∨ acceptHi s0 < s1) := by omega
  simp [DecodeRune, a1, a2, w, a7, a8]

theorem DecodeRune_four (s0 s1 s2 s3 : Nat) (rest : GoString) (h0 : 0xF0 ≤ s0) (h0' : s0 ≤ 0xF4)
    (h1 : acceptLo s0 ≤ s1) (h1' : s1 ≤ acceptHi s0)
    (h2 : 0x80 ≤ s2) (h2' : s2 ≤ 0xBF) (h3 : 0x80 ≤ s3) (h3' : s3 ≤ 0xBF) :
    DecodeRune (s0 :: s1 :: s2 :: s3 :: rest) =
      (s0 % 8 * 262144 + s1 % 64 * 4096 + s2 % 64 * 64 + s3 % 64, 4) := by
  have a1 : ¬ s0 < 0x80 := by omega
  have a2 : ¬ (s0 < 0xC2 ∨ 0xF4 < s0) := by omega
  have w : runeWidth s0 = 4 := by unfold runeWidth; split_ifs <;> omega
  have a7 : ¬ (s2 < 0x80 ∨ 0xBF < s2) := by omega
  have a9 : ¬ (s3 < 0x80 ∨ 0xBF < s3) := by omega
  have a8 : ¬ (s1 < acceptLo s0 ∨ acceptHi s0 < s1) := by omega
  simp [DecodeRune, a1, a2, w, a7, a8, a9]

theorem DecodeRune_EncodeRune (r : Nat) (rest : GoString)
    (h : r < 0xD800 ∨ (0xDFFF < r ∧ r < 0x110000)) :
    DecodeRune (EncodeRune r ++ rest) = (r, (EncodeRune r).length) := by
  unfold EncodeRune
  split_ifs with h1 h2 h3 h4
  · simp [DecodeRune, h1]
  · rw [List.cons_append, List.cons_append, List.nil_append,
      DecodeRune_two _ _ _ (by omega) (by omega) (by omega) (by omega)]
    simp only [List.length_cons, List.length_nil, Prod.mk.injEq, and_true]
    omega
  · omega
  · rw [List.cons_append, List.cons_append, List.cons_append, List.nil_append,
      DecodeRune_three _ _ _ _ (by omega) (by omega) (by unfold acceptLo; split_ifs <;> omega)
        (by unfold acceptHi; split_ifs <;> omega) (by omega) (by omega)]
    simp only [List.length_cons, List.length_nil, Prod.mk.injEq, and_true]
    omega
  · rw [List.cons_append, List.cons_append, List.cons_append, List.cons_append, List.nil_append,
      DecodeRune_four _ _ _ _ _ (by omega) (by omega) (by unfold acceptLo; split_ifs <;> omega)
        (by unfold acceptHi; split_ifs <;> omega) (by omega) (by omega) (by omega) (by omega)]
    simp only [List.length_cons, List.length_nil, Prod.mk.injEq, and_true]
    omega

theorem DecodeRune_size (c : Nat) (t : GoString) :
    1 ≤ (DecodeRune (c :: t)).2 ∧ (DecodeRune (c :: t)).2 ≤ (c :: t).length := by
  unfold DecodeRune
  generalize runeWidth c = wd
  generalize acceptLo c = lo
  generalize acceptHi c = hi
  rcases t with _ | ⟨s1, _ | ⟨s2, _ | ⟨s3, t3⟩⟩⟩ <;>
    simp only [List.length_cons, List.length_nil] <;>
    split_ifs <;> simp only [] <;> omega

theorem cleanLoop_fuel (n : Nat) : ∀ (s b : GoString), s.length ≤ n →
    cleanLoop n s b = cleanLoop s.length s b := by
  induction n using Nat.strong_induction_on with
  | _ n ih =>
    intro s b hn
    cases s with
    | nil => cases n <;> simp [cleanLoop]
    | cons c t =>
      obtain ⟨m, rfl⟩ : ∃ m, n = m + 1 := ⟨n - 1, by simp at hn; omega⟩
      have hs := DecodeRune_size c t
      simp only [List.length_cons, cleanLoop]
      have hl : ((c :: t).drop (DecodeRune (c :: t)).2).length ≤ t.length := by
        simp only [List.length_drop, List.length_cons]; omega
      simp only [List.length_cons] at hn
      rw [ih m (by omega) _ _ (by omega), ih t.length (by omega) _ _ hl]

theorem EncodeRune_length_pos (r : Nat) : 1 ≤ (EncodeRune r).length := by
  unfold EncodeRune
  split_ifs <;> simp

theorem Char_toNat_valid (c : Char) :
    c.toNat < 0xD800 ∨ (0xDFFF < c.toNat ∧ c.toNat < 0x110000) := c.valid

theorem cleanLoop_cons (n c : Nat) (t b : GoString) :
    cleanLoop (n + 1) (c :: t) b =
      cleanLoop n ((c :: t).drop (DecodeRune (c :: t)).2) (b ++ [(DecodeRune (c :: t)).1 % 256]) :=
  rfl

theorem cleanLoop_rangeLoop (n : Nat) : ∀ (s b : GoString),
    cleanLoop n s b = b ++ (rangeLoop n s).map (· % 256) := by
  induction n with
  | zero => intro s b; simp [cleanLoop, rangeLoop]
  | succ m ih =>
    intro s b
    cases s with
    | nil => simp [cleanLoop, rangeLoop]
    | cons c t =>
      rw [cleanLoop_cons, ih]
      simp [rangeLoop]

theorem cleanLoop_utf8 (cs : List Nat)
    (hcs : ∀ r ∈ cs, r < 0xD800 ∨ (0xDFFF < r ∧ r < 0x110000)) :
    ∀ (n : Nat) (b : GoString), (utf8 cs).length ≤ n →
      cleanLoop n (utf8 cs) b = b ++ cs.map (· % 256) := by
  induction cs with
  | nil => intro n b _; cases n <;> simp [utf8, cleanLoop]
  | cons r cs ih =>
    intro n b hn
    have hr := hcs r (List.mem_cons_self _ _)
    have hpos := EncodeRune_length_pos r
    have hdec := DecodeRune_EncodeRune r (utf8 cs) hr
    have hu : utf8 (r :: cs) = EncodeRune r ++ utf8 cs := by simp [utf8]
    rw [hu] at hn ⊢
    rw [List.length_append] at hn
    obtain ⟨m, rfl⟩ : ∃ m, n = m + 1 := ⟨n - 1, by omega⟩
    obtain ⟨c0, t0, he⟩ : ∃ c0 t0, EncodeRune r ++ utf8 cs = c0 :: t0 := by
      cases hE : EncodeRune r with
      | nil => rw [hE] at hpos; simp at hpos
      | cons c0 t0 => exact ⟨c0, t0 ++ utf8 cs, rfl⟩
    rw [he, cleanLoop_cons, ← he, hdec]
    simp only [List.drop_left]
    rw [ih (fun x hx => hcs x (List.mem_cons_of_mem _ hx)) m _ (by omega)]
    simp

theorem cleanLoop_ascii (a : GoString) (ha : ∀ b ∈ a, b < 128) :
    ∀ (n : Nat) (b : GoString), a.length ≤ n → cleanLoop n a b = b ++ a := by
  induction a with
  | nil => intro n b _; cases n <;> simp [cleanLoop]
  | cons c t ih =>
    intro n b hn
    obtain ⟨m, rfl⟩ : ∃ m, n = m + 1 := ⟨n - 1, by simp at hn; omega⟩
    have hc : c < 128 := ha c (List.mem_cons_self _ _)
    have hd : DecodeRune (c :: t) = (c, 1) := by simp [DecodeRune, hc]
    rw [cleanLoop_cons, hd]
    simp only [List.drop_succ_cons, List.drop_zero]
    rw [ih (fun x hx => ha x (List.mem_cons_of_mem _ hx)) m _ (by simp at hn; omega)]
    have : c % 256 = c := by omega
    simp [this]

theorem clean_str (s : String) : clean (str s) = s.toList.map (fun c => c.toNat % 256) := by
  unfold clean str
  rw [cleanLoop_utf8 _ _ _ _ (le_refl _)]
  · simp [List.map_map, Function.comp_def]
  · intro r hr
    obtain ⟨c, _, rfl⟩ := List.mem_map.1 hr
    exact Char_toNat_valid c

theorem NewClient_of_valid (opts : List ClientOpt) (hu : (applyOpts opts).username ≠ [])
    (hp : (applyOpts opts).password ≠ []) (hb : (applyOpts opts).baseURL ≠ []) :
    NewClient opts =
      match Parse (clean (applyOpts opts).baseURL) with
      | .error err => .error (w (str "%w: %w") [ErrInvalidURLProvided, err])
      | .ok u =>
        .ok { baseURL := u.String
              username := (applyOpts opts).username
              password := (applyOpts opts).password
              client :=
                match (applyOpts opts).client with
                | none => some { Transport := none, Timeout := 60 * Second }
                | some h => some h } := by
  unfold NewClient
  dsimp only
  rw [if_neg hu, if_neg hp, if_neg hb]
  cases Parse (clean (applyOpts opts).baseURL) with
  | error e => rfl
  | ok u =>
    simp only
    cases (applyOpts opts).client <;> rfl


/-! ## `NewClient` -/


theorem Is_self (e : GoError) : Is e e = true := by
  cases e <;> simp [Is]

theorem Is_wrapErrors_left (msg : GoString) (e1 e2 target : GoError) (h : Is e1 target = true) :
    Is (.wrapErrors msg e1 e2) target = true := by
  simp [Is, h]

theorem Is_wrapErrors_right (msg : GoString) (e1 e2 target : GoError) (h : Is e2 target = true) :
    Is (.wrapErrors msg e1 e2) target = true := by
  simp [Is, h]

theorem NewClient_no_username (opts : List ClientOpt) (hu : (applyOpts opts).username = []) :
    NewClient opts = .error ErrNoUsernameProvided := by
  unfold NewClient
  dsimp only
  rw [if_pos hu]

theorem NewClient_no_password (opts : List ClientOpt) (hu : (applyOpts opts).username ≠ [])
    (hp : (applyOpts opts).password = []) :
    NewClient opts = .error ErrNoPasswordProvided := by
  unfold NewClient
  dsimp only
  rw [if_neg hu, if_pos hp]

theorem NewClient_no_url (opts : List ClientOpt) (hu : (applyOpts opts).username ≠ [])
    (hp : (applyOpts opts).password ≠ []) (hb : (applyOpts opts).baseURL = []) :
    NewClient opts = .error (w (str "%w: not provided") [ErrInvalidURLProvided]) := by
  unfold NewClient
  dsimp only
  rw [if_neg hu, if_neg hp, if_pos hb]

theorem NewClient_parse_error (opts : List ClientOpt) (hu : (applyOpts opts).username ≠ [])
    (hp : (applyOpts opts).password ≠ []) (hb : (applyOpts opts).baseURL ≠ []) (err : GoError)
    (he : Parse (clean (applyOpts opts).baseURL) = .error err) :
    NewClient opts = .error (w (str "%w: %w") [ErrInvalidURLProvided, err]) := by
  rw [NewClient_of_valid opts hu hp hb, he]

theorem NewClient_parse_ok (opts : List ClientOpt) (hu : (applyOpts opts).username ≠ [])
    (hp : (applyOpts opts).password ≠ []) (hb : (applyOpts opts).baseURL ≠ []) (u : URL)
    (he : Parse (clean (applyOpts opts).baseURL) = .ok u) :
    NewClient opts =
      .ok { baseURL := u.String
            username := (applyOpts opts).username
            password := (applyOpts opts).password
            client :=
              match (applyOpts opts).client with
              | none => some { Transport := none, Timeout := 60 * Second }
              | some h => some h } := by
  rw [NewClient_of_valid opts hu hp hb, he]

/-- What a successful `NewClient` implies about the options and the client. -/
theorem NewClient_ok_inv (opts : List ClientOpt) (c : client) (h : NewClient opts = .ok c) :
    (applyOpts opts).username ≠ [] ∧ (applyOpts opts).password ≠ [] ∧
    (applyOpts opts).baseURL ≠ [] ∧
    ∃ u, Parse (clean (applyOpts opts).baseURL) = .ok u ∧
      c = { baseURL := u.String
            username := (applyOpts opts).username
            password := (applyOpts opts).password
            client :=
              match (applyOpts opts).client with
              | none => some { Transport := none, Timeout := 60 * Second }
              | some h => some h } := by
  by_cases hu : (applyOpts opts).username = []
  · rw [NewClient_no_username opts hu] at h; cases h
  by_cases hp : (applyOpts opts).password = []
  · rw [NewClient_no_password opts hu hp] at h; cases h
  by_cases hb : (applyOpts opts).baseURL = []
  · rw [NewClient_no_url opts hu hp hb] at h; cases h
  refine ⟨hu, hp, hb, ?_⟩
  cases hP : Parse (clean (applyOpts opts).baseURL) with
  | error e => rw [NewClient_parse_error opts hu hp hb e hP] at h; cases h
  | ok u =>
    rw [NewClient_parse_ok opts hu hp hb u hP] at h
    exact ⟨u, rfl, (Except.ok.inj h).symm⟩

/-- C3: `NewClient` fails on the first failing check in the order username,
password, URL. An empty username gives `ErrNoUsernameProvided`, otherwise an
empty password gives `ErrNoPasswordProvided` (both match
`ErrInvalidClientOpts`); otherwise the call fails, with an error matching
`ErrInvalidURLProvided`, exactly when the URL is empty (text "invalid url: not
provided") or `url.Parse` rejects the cleaned URL, as it does for
"http://\x7f/"; in every other case it returns a client. -/
theorem NewClient_first_failing_check (opts : List ClientOpt) :
    ((applyOpts opts).username = [] → NewClient opts = .error ErrNoUsernameProvided) ∧
    ((applyOpts opts).username ≠ [] → (applyOpts opts).password = [] →
      NewClient opts = .error ErrNoPasswordProvided) ∧
    Is ErrNoUsernameProvided ErrInvalidClientOpts = true ∧
    Is ErrNoPasswordProvided ErrInvalidClientOpts = true ∧
    ((applyOpts opts).username ≠ [] → (applyOpts opts).password ≠ [] →
      ((∃ err, NewClient opts = .error err) ↔
        ((applyOpts opts).baseURL = [] ∨
          (Parse (clean (applyOpts opts).baseURL)).isOk = false)) ∧
      (∀ err, NewClient opts = .error err → Is err ErrInvalidURLProvided = true) ∧
      ((applyOpts opts).baseURL = [] →
        ∃ err, NewClient opts = .error err ∧ err.Error = str "invalid url: not provided") ∧
      (¬ ((applyOpts opts).baseURL = [] ∨
          (Parse (clean (applyOpts opts).baseURL)).isOk = false) →
        ∃ c, NewClient opts = .ok c)) ∧
    (Parse (clean (str "http://\x7f/"))).isOk = false := by
  refine ⟨NewClient_no_username opts, NewClient_no_password opts, by decide, by decide, ?_,
    by decide⟩
  intro hu hp
  by_cases hb : (applyOpts opts).baseURL = []
  · have hN := NewClient_no_url opts hu hp hb
    refine ⟨⟨fun _ => Or.inl hb, fun _ => ⟨_, hN⟩⟩, ?_, fun _ => ⟨_, hN, by decide⟩,
      fun hno => absurd (Or.inl hb) hno⟩
    intro err herr
    rw [hN] at herr
    cases herr
    decide
  · cases hP : Parse (clean (applyOpts opts).baseURL) with
    | error e =>
      have hN := NewClient_parse_error opts hu hp hb e hP
      refine ⟨⟨fun _ => Or.inr rfl, fun _ => ⟨_, hN⟩⟩, ?_, fun h => absurd h hb,
        fun hno => absurd (Or.inr rfl) hno⟩
      intro err herr
      rw [hN] at herr
      cases herr
      exact Is_wrapErrors_left _ _ _ _ (by decide)
    | ok u =>
      have hN := NewClient_parse_ok opts hu hp hb u hP
      refine ⟨⟨?_, ?_⟩, ?_, fun h => absurd h hb, fun _ => ⟨_, hN⟩⟩
      · rintro ⟨err, herr⟩
        rw [hN] at herr
        cases herr
      · rintro (h | h)
        · exact absurd h hb
        · cases h
      · intro err herr
        rw [hN] at herr
        cases herr

/-- The checks of `NewClient` on the option lists of the package tests. -/
theorem NewClient_first_failing_check_witness :
    NewClient [BasicAuth (str "") (str "password"),
      ServiceURL (str "http://provider.cluster.local")] = .error ErrNoUsernameProvided ∧
    NewClient [BasicAuth (str "user") (str ""), ServiceURL (str "")] = .error ErrNoPasswordProvided ∧
    (∃ err, NewClient [BasicAuth (str "user") (str "pass"), ServiceURL (str "")] = .error err ∧
      err.Error = str "invalid url: not provided") ∧
    (∃ err, NewClient [BasicAuth (str "user") (str "pass"), ServiceURL (str "http://\x7f/")]
      = .error err) ∧
    (∃ c, NewClient [BasicAuth (str "user") (str "pass"),
      ServiceURL (str "http://provider.cluster.local")] = .ok c) :=
  ⟨(NewClient_first_failing_check _).1 (by decide),
   (NewClient_first_failing_check _).2.1 (by decide) (by decide),
   ((NewClient_first_failing_check
      [BasicAuth (str "user") (str "pass"), ServiceURL (str "")]).2.2.2.2.1
      (by decide) (by decide)).2.2.1 (by decide),
   ((NewClient_first_failing_check
      [BasicAuth (str "user") (str "pass"), ServiceURL (str "http://\x7f/")]).2.2.2.2.1
      (by decide) (by decide)).1.2 (by decide),
   ((NewClient_first_failing_check
      [BasicAuth (str "user") (str "pass"),
        ServiceURL (str "http://provider.cluster.local")]).2.2.2.2.1
      (by decide) (by decide)).2.2.2 (by decide)⟩

/-- C7: the string `NewClient` parses is `clean` of the service URL; `clean`
yields one byte per character of the string, in order, the character's code
point modulo 256 (for a string of Unicode characters in UTF-8 and, with the
runes that ranging yields as characters, for every byte string), so an ASCII
string is unchanged; the URL stored is the parser's rendering of the cleaned
string. -/
theorem clean_low_byte_before_parse (s : String) :
    clean (str s) = s.toList.map (fun c => c.toNat % 256) ∧
    (clean (str s)).length = s.length ∧
    (∀ a : GoString, clean a = (runes a).map (· % 256)) ∧
    (∀ a : GoString, (∀ b ∈ a, b < 128) → clean a = a) ∧
    (∀ opts : List ClientOpt, (applyOpts opts).username ≠ [] → (applyOpts opts).password ≠ [] →
      (applyOpts opts).baseURL ≠ [] →
      (∀ err, Parse (clean (applyOpts opts).baseURL) = .error err →
        NewClient opts = .error (w (str "%w: %w") [ErrInvalidURLProvided, err])) ∧
      (∀ u, Parse (clean (applyOpts opts).baseURL) = .ok u →
        ∃ c, NewClient opts = .ok c ∧ c.baseURL = u.String)) := by
  refine ⟨clean_str s, ?_, ?_, ?_, ?_⟩
  · rw [clean_str, List.length_map]; rfl
  · intro a
    unfold clean runes
    rw [cleanLoop_rangeLoop]
    rfl
  · intro a ha
    unfold clean
    rw [cleanLoop_ascii a ha _ _ (le_refl _)]
    rfl
  · intro opts hu hp hb
    rw [NewClient_of_valid opts hu hp hb]
    constructor
    · intro err he; rw [he]
    · intro u he; rw [he]; exact ⟨_, rfl, rfl⟩

/-- `clean` on a URL with characters outside ASCII and on an ASCII URL, and
`NewClient` on a URL with a character outside ASCII. -/
theorem clean_low_byte_before_parse_witness :
    clean (str "http://caf\u00e9.\u4e2d/") =
      [104, 116, 116, 112, 58, 47, 47, 99, 97, 102, 233, 46, 45, 47] ∧
    clean (str "http://provider.cluster.local") = str "http://provider.cluster.local" ∧
    (∃ c, NewClient [BasicAuth (str "user") (str "pass"), ServiceURL (str "http://h\u0141/")] =
        .ok c ∧ c.baseURL = str "http://hA/") :=
  ⟨(clean_low_byte_before_parse "http://caf\u00e9.\u4e2d/").1,
   (clean_low_byte_before_parse "").2.2.2.1 (str "http://provider.cluster.local") (by decide),
   ((clean_low_byte_before_parse "").2.2.2.2
      [BasicAuth (str "user") (str "pass"), ServiceURL (str "http://h\u0141/")]
      (by decide) (by decide) (by decide)).2
      { Scheme := str "http", Host := str "hA", Path := str "/" } (by decide)⟩

/-- C8, as the claim states it, fails: with the service URL "foo" `NewClient`
succeeds and stores "foo", which `url.Parse` reads as a URL without a scheme;
with the service URL "#" it succeeds and stores the empty string. -/
theorem NewClient_stores_relative_or_empty_url :
    (∃ c, NewClient [BasicAuth (str "user") (str "pass"), ServiceURL (str "foo")] = .ok c ∧
      c.baseURL = str "foo" ∧ Parse c.baseURL = .ok { Path := str "foo" } ∧
      ({ Path := str "foo" } : URL).IsAbs = false) ∧
    (∃ c, NewClient [BasicAuth (str "user") (str "pass"), ServiceURL (str "#")] = .ok c ∧
      c.baseURL = []) :=
  ⟨⟨{ baseURL := str "foo", username := str "user", password := str "pass",
      client := some { Transport := none, Timeout := 60 * Second } },
      by rfl, by rfl, by decide, by decide⟩,
   ⟨{ baseURL := [], username := str "user", password := str "pass",
      client := some { Transport := none, Timeout := 60 * Second } },
      by rfl, by rfl⟩⟩

/-- C8, amended: a client returned by `NewClient` has a non-empty username, a
non-empty password and a non-nil HTTP client, and its base URL is the rendering
`u.String()` of the URL `u` that `url.Parse` returned for the cleaned, non-empty
service URL. -/
theorem NewClient_client_invariant (opts : List ClientOpt) (c : client)
    (h : NewClient opts = .ok c) :
    c.username ≠ [] ∧ c.password ≠ [] ∧ c.client.isSome = true ∧
    (applyOpts opts).baseURL ≠ [] ∧
    ∃ u, Parse (clean (applyOpts opts).baseURL) = .ok u ∧ c.baseURL = u.String := by
  obtain ⟨hu, hp, hb, u, hP, rfl⟩ := NewClient_ok_inv opts c h
  refine ⟨hu, hp, ?_, hb, u, hP, rfl⟩
  dsimp only
  cases (applyOpts opts).client <;> rfl

/-- The invariant on the client built from the sample options. -/
theorem NewClient_client_invariant_witness :
    NewClient sampleOpts = .ok builtClient ∧
    builtClient.username ≠ [] ∧ builtClient.password ≠ [] ∧ builtClient.client.isSome = true ∧
    (applyOpts sampleOpts).baseURL ≠ [] ∧
    ∃ u, Parse (clean (applyOpts sampleOpts).baseURL) = .ok u ∧ builtClient.baseURL = u.String :=
  ⟨by rfl, NewClient_client_invariant sampleOpts builtClient (by rfl)⟩

theorem foldl_keepsClient (post : List ClientOpt) (hpost : ∀ o ∈ post, keepsClient o) :
    ∀ cfg : clientOpts,
      (post.foldl (fun cfg opt => opt cfg) cfg).client = cfg.client := by
  induction post with
  | nil => intro cfg; rfl
  | cons o post ih =>
    intro cfg
    rw [List.foldl_cons, ih (fun x hx => hpost x (List.mem_cons_of_mem _ hx))]
    rcases hpost o (List.mem_cons_self _ _) with ⟨u, p, rfl⟩ | ⟨url, rfl⟩ <;> rfl

theorem applyOpts_last_client (pre post : List ClientOpt) (h : Option HTTPClient)
    (hpost : ∀ o ∈ post, keepsClient o) :
    (applyOpts (pre ++ WithHTTPClient h :: post)).client = h := by
  unfold applyOpts
  rw [List.foldl_append, List.foldl_cons, foldl_keepsClient post hpost]
  rfl

theorem applyOpts_no_client (opts : List ClientOpt) (hopts : ∀ o ∈ opts, keepsClient o) :
    (applyOpts opts).client = none := by
  unfold applyOpts
  rw [foldl_keepsClient opts hopts]

/-- C10: when `NewClient` succeeds and the options leave the HTTP client nil,
the client holds the default `http.Client` whose timeout is 60 seconds; when
the last `WithHTTPClient` option gave a non-nil HTTP client, the client holds
that same value. -/
theorem NewClient_transport (opts : List ClientOpt) (c : client) (h : NewClient opts = .ok c) :
    ((applyOpts opts).client = none →
      c.client = some { Transport := none, Timeout := 60 * Second }) ∧
    (∀ hc, (applyOpts opts).client = some hc → c.client = some hc) ∧
    ((∀ o ∈ opts, keepsClient o) →
      c.client = some { Transport := none, Timeout := 60 * Second }) ∧
    (∀ pre post hc, opts = pre ++ WithHTTPClient (some hc) :: post →
      (∀ o ∈ post, keepsClient o) → c.client = some hc) ∧
    (60 * Second = 60000000000) := by
  obtain ⟨_, _, _, u, _, rfl⟩ := NewClient_ok_inv opts c h
  have h1 : (applyOpts opts).client = none →
      (match (applyOpts opts).client with
        | none => some ({ Transport := none, Timeout := 60 * Second } : HTTPClient)
        | some h => some h) = some { Transport := none, Timeout := 60 * Second } := by
    intro hn; rw [hn]
  have h2 : ∀ hc, (applyOpts opts).client = some hc →
      (match (applyOpts opts).client with
        | none => some ({ Transport := none, Timeout := 60 * Second } : HTTPClient)
        | some h => some h) = some hc := by
    intro hc hn; rw [hn]
  refine ⟨h1, h2, fun hk => h1 (applyOpts_no_client opts hk), ?_, by decide⟩
  intro pre post hc hopts hpost
  exact h2 hc (by rw [hopts]; exact applyOpts_last_client pre post (some hc) hpost)

/-- The default HTTP client for the sample options, and a supplied one kept. -/
theorem NewClient_transport_witness :
    (NewClient sampleOpts = .ok builtClient ∧
      builtClient.client = some { Transport := none, Timeout := 60 * Second }) ∧
    (NewClient [BasicAuth (str "user") (str "pass"),
        WithHTTPClient (some { Transport := some (answering ⟨200, []⟩), Timeout := 0 }),
        ServiceURL (str "http://provider.cluster.local")] =
        .ok (sampleClient (some (answering ⟨200, []⟩))) ∧
      (sampleClient (some (answering ⟨200, []⟩))).client =
        some { Transport := some (answering ⟨200, []⟩), Timeout := 0 }) :=
  ⟨⟨by rfl, (NewClient_transport sampleOpts builtClient (by rfl)).2.2.1
      (by
        intro o ho
        simp only [sampleOpts, List.mem_cons, List.mem_singleton, List.not_mem_nil,
          or_false] at ho
        rcases ho with rfl | rfl
        · exact Or.inl ⟨_, _, rfl⟩
        · exact Or.inr ⟨_, rfl⟩)⟩,
   ⟨by rfl, (NewClient_transport
      [BasicAuth (str "user") (str "pass"),
        WithHTTPClient (some { Transport := some (answering ⟨200, []⟩), Timeout := 0 }),
        ServiceURL (str "http://provider.cluster.local")]
      (sampleClient (some (answering ⟨200, []⟩))) (by rfl)).2.2.2.1
      [BasicAuth (str "user") (str "pass")] [ServiceURL (str "http://provider.cluster.local")]
      { Transport := some (answering ⟨200, []⟩), Timeout := 0 } rfl
      (by
        intro o ho
        simp only [List.mem_singleton] at ho
        subst ho
        exact Or.inr ⟨_, rfl⟩)⟩⟩

/-! ## `RequestJWT` -/

theorem RequestJWT_nil_context (DefaultTransport : RoundTripper) (c : client) :
    RequestJWT DefaultTransport c none =
      some (([], some (w (str "%w: %w")
        [ErrUnableToFormRequest, .errorString (str "net/http: nil Context")])),
        [.stdout (str "Making request to " ++ c.baseURL ++ str "\n")]) := by
  have h : NewRequestWithContext none MethodGet c.baseURL none =
      .error (.errorString (str "net/http: nil Context")) := by
    unfold NewRequestWithContext
    have hm : validMethod (if MethodGet = [] then str "GET" else MethodGet) = true := by decide
    simp only [hm]
    rfl
  unfold RequestJWT
  rw [h]

theorem RequestJWT_formed (DefaultTransport : RoundTripper) (c : client) (hc : HTTPClient)
    (ctx : Option Context) (req : Request) (h1 : c.client = some hc)
    (h2 : NewRequestWithContext ctx MethodGet c.baseURL none = .ok req) :
    RequestJWT DefaultTransport c ctx =
      match hc.Do DefaultTransport req with
      | .error err =>
        some (([], some (w (str "%w: %w") [ErrFailedToPerformRequest, err])),
          [.stdout (str "Making request to " ++ c.baseURL ++ str "\n"), .Do req])
      | .ok resp =>
        if resp.StatusCode ≠ StatusOK then
          some (([], some (.ErrRequestFailure resp.StatusCode)),
            [.stdout (str "Making request to " ++ c.baseURL ++ str "\n"), .Do req, .closeBody])
        else
          match Decode resp.Body with
          | .error err =>
            some (([], some (w (str "%w: %w") [ErrMalformedServerData, err])),
              [.stdout (str "Making request to " ++ c.baseURL ++ str "\n"), .Do req,
                .decodeBody resp.Body, .closeBody])
          | .ok jwtResp =>
            some ((jwtResp.Token, none),
              [.stdout (str "Making request to " ++ c.baseURL ++ str "\n"), .Do req,
                .decodeBody resp.Body, .closeBody]) := by
  unfold RequestJWT
  rw [h2]
  simp only [h1]
  rfl

/-- C6: when the response has a status code other than 200, whatever its body,
`RequestJWT` returns the empty token and an `*ErrRequestFailure` whose
`Status()` is that code and whose `Error()` is "request returned an
unexpected status code of " followed by the code in decimal; the body is
closed and never decoded. -/
theorem RequestJWT_unexpected_status (DefaultTransport : RoundTripper) (c : client)
    (hc : HTTPClient) (ctx : Context) (req : Request) (resp : Response)
    (h1 : c.client = some hc)
    (h2 : NewRequestWithContext (some ctx) MethodGet c.baseURL none = .ok req)
    (h3 : hc.Do DefaultTransport req = .ok resp) (h4 : resp.StatusCode ≠ 200) :
    RequestJWT DefaultTransport c (some ctx) =
      some (([], some (.ErrRequestFailure resp.StatusCode)),
        [.stdout (str "Making request to " ++ c.baseURL ++ str "\n"), .Do req, .closeBody]) ∧
    (GoError.ErrRequestFailure resp.StatusCode).Status = some resp.StatusCode ∧
    (GoError.ErrRequestFailure resp.StatusCode).Error =
      str "request returned an unexpected status code of " ++ Itoa resp.StatusCode ∧
    (∀ body, Event.decodeBody body ∉
      [Event.stdout (str "Making request to " ++ c.baseURL ++ str "\n"), .Do req, .closeBody]) := by
  refine ⟨?_, rfl, rfl, ?_⟩
  · rw [RequestJWT_formed DefaultTransport c hc (some ctx) req h1 h2, h3]
    simp only [StatusOK]
    rw [if_pos h4]
  · intro body hmem
    simp at hmem

/-- The status 403 of the package test. -/
theorem RequestJWT_unexpected_status_witness :
    RequestJWT (fun _ => .error Canceled)
        (sampleClient (some (fun _ => .ok ⟨403, str "Forbidden"⟩))) (some ⟨false⟩) =
      some (([], some (.ErrRequestFailure 403)),
        [.stdout (str "Making request to http://provider.cluster.local\n"),
          .Do (sampleRequest ⟨false⟩), .closeBody]) ∧
    (GoError.ErrRequestFailure 403).Status = some 403 ∧
    (GoError.ErrRequestFailure 403).Error =
      str "request returned an unexpected status code of 403" :=
  have h := RequestJWT_unexpected_status (fun _ => .error Canceled)
    (sampleClient (some (fun _ => .ok ⟨403, str "Forbidden"⟩)))
    { Transport := some (fun _ => .ok ⟨403, str "Forbidden"⟩), Timeout := 0 }
    ⟨false⟩ (sampleRequest ⟨false⟩) ⟨403, str "Forbidden"⟩ rfl (by decide) rfl (by decide)
  ⟨h.1, h.2.1, h.2.2.1⟩

/-- C9, as the claim states it, fails for a context that is cancelled but not
nil: the request is formed and handed to the HTTP client, and the failure of
that call is returned as `ErrFailedToPerformRequest`, which does not match
`ErrUnableToFormRequest`. -/
theorem RequestJWT_cancelled_context_reaches_transport :
    RequestJWT (answering ⟨200, []⟩) (sampleClient none) (some ⟨true⟩) =
      some (([], some (w (str "%w: %w") [ErrFailedToPerformRequest, Canceled])),
        [.stdout (str "Making request to http://provider.cluster.local\n"),
          .Do (sampleRequest ⟨true⟩)]) ∧
    Is (w (str "%w: %w") [ErrFailedToPerformRequest, Canceled]) ErrUnableToFormRequest = false ∧
    sentRequests [.stdout (str "Making request to http://provider.cluster.local\n"),
      .Do (sampleRequest ⟨true⟩)] = [sampleRequest ⟨true⟩] :=
  ⟨by decide, by decide, by decide⟩

/-- C9, amended: with a nil context `RequestJWT` returns the empty token and an
error matching `ErrUnableToFormRequest`, and the HTTP client is never called.
With a context that is not nil, cancelled or not, a request that can be formed
is handed to the HTTP client, and when that call fails `RequestJWT` returns the
empty token and an error matching `ErrFailedToPerformRequest`. -/
theorem RequestJWT_context (DefaultTransport : RoundTripper) (c : client) :
    (∃ err, RequestJWT DefaultTransport c none =
        some (([], some err), [.stdout (str "Making request to " ++ c.baseURL ++ str "\n")]) ∧
      Is err ErrUnableToFormRequest = true ∧
      sentRequests [.stdout (str "Making request to " ++ c.baseURL ++ str "\n")] = []) ∧
    (∀ (hc : HTTPClient) (ctx : Context) (req : Request), c.client = some hc →
      NewRequestWithContext (some ctx) MethodGet c.baseURL none = .ok req →
      (∃ r, RequestJWT DefaultTransport c (some ctx) = some r ∧ sentRequests r.2 = [req]) ∧
      (∀ e, hc.Do DefaultTransport req = .error e →
        ∃ err, RequestJWT DefaultTransport c (some ctx) =
            some (([], some err),
              [.stdout (str "Making request to " ++ c.baseURL ++ str "\n"), .Do req]) ∧
          Is err ErrFailedToPerformRequest = true)) := by
  constructor
  · exact ⟨_, RequestJWT_nil_context DefaultTransport c,
      Is_wrapErrors_left _ _ _ _ (by decide), rfl⟩
  · intro hc ctx req h1 h2
    have hf := RequestJWT_formed DefaultTransport c hc (some ctx) req h1 h2
    constructor
    · rw [hf]
      cases hc.Do DefaultTransport req with
      | error e => exact ⟨_, rfl, rfl⟩
      | ok resp =>
        dsimp only
        split_ifs
        · exact ⟨_, rfl, rfl⟩
        · cases Decode resp.Body <;> exact ⟨_, rfl, rfl⟩
    · intro e he
      rw [hf, he]
      exact ⟨_, rfl, Is_wrapErrors_left _ _ _ _ (by decide)⟩

/-- A cancelled context on the sample client. -/
theorem RequestJWT_context_witness :
    (∃ r, RequestJWT (answering ⟨200, []⟩) (sampleClient none) (some ⟨true⟩) = some r ∧
      sentRequests r.2 = [sampleRequest ⟨true⟩]) ∧
    (∃ err, RequestJWT (answering ⟨200, []⟩) (sampleClient none) (some ⟨true⟩) =
        some (([], some err),
          [.stdout (str "Making request to " ++ (sampleClient none).baseURL ++ str "\n"),
            .Do (sampleRequest ⟨true⟩)]) ∧
      Is err ErrFailedToPerformRequest = true) :=
  have h := (RequestJWT_context (answering ⟨200, []⟩) (sampleClient none)).2
    { Transport := none, Timeout := 0 } ⟨true⟩ (sampleRequest ⟨true⟩) rfl (by decide)
  ⟨h.1, h.2 Canceled rfl⟩

/-- C1, at the client built from the username "user" and the password "pass":
whatever the transport does, `RequestJWT` hands exactly one request to the HTTP
client; it is a GET to the stored base URL without a body, and it has no header
field at all, so no `Authorization` field. -/
theorem RequestJWT_request_has_no_authorization (DefaultTransport : RoundTripper) :
    NewClient sampleOpts = .ok builtClient ∧
    (RequestJWT DefaultTransport builtClient (some ⟨false⟩)).map (fun r => sentRequests r.2) =
      some [sampleRequest ⟨false⟩] ∧
    (sampleRequest ⟨false⟩).Method = MethodGet ∧
    (sampleRequest ⟨false⟩).URL.String = str "http://provider.cluster.local" ∧
    (sampleRequest ⟨false⟩).Body = none ∧
    (sampleRequest ⟨false⟩).Header = [] ∧
    (sampleRequest ⟨false⟩).headerGet (str "Authorization") = none := by
  refine ⟨by rfl, ?_, by decide, by decide, by decide, by decide, by decide⟩
  rw [RequestJWT_formed DefaultTransport builtClient { Transport := none, Timeout := 60 * Second }
    (some ⟨false⟩) (sampleRequest ⟨false⟩) rfl (by decide)]
  cases HTTPClient.Do DefaultTransport { Transport := none, Timeout := 60 * Second }
      (sampleRequest ⟨false⟩) with
  | error e => rfl
  | ok resp =>
    dsimp only
    split_ifs
    · rfl
    · cases Decode resp.Body <;> rfl

/-- C5, as the claim states it, fails for an object without a token field: for
the body of two braces, and for a token that is `null`, `RequestJWT` returns the
empty token and no error. -/
theorem RequestJWT_missing_token_is_no_error :
    (RequestJWT (answering ⟨200, str "\x7b\x7d"⟩) (sampleClient none) (some ⟨false⟩)).map
      (fun r => r.1) = some ([], none) ∧
    (RequestJWT (answering ⟨200, str "\x7b\"token\":null\x7d"⟩) (sampleClient none)
      (some ⟨false⟩)).map (fun r => r.1) = some ([], none) ∧
    (RequestJWT (answering ⟨200, str "\x7b\"jwt\":\"abc123\"\x7d"⟩) (sampleClient none)
      (some ⟨false⟩)).map (fun r => r.1) = some ([], none) :=
  ⟨by decide, by decide, by decide⟩

/-- C5, amended: when the response has status 200 and the JSON decoder rejects
its body, `RequestJWT` returns the empty token and an error that matches
`ErrMalformedServerData` and wraps the decoder's error; the decoder rejects
truncated JSON and a token that is a number or a boolean. When the decoder
accepts the body, `RequestJWT` returns the decoded token and no error, and the
decoder accepts an object without a token field, or with a `null` token, with
the empty token. -/
theorem RequestJWT_malformed_body (DefaultTransport : RoundTripper) (c : client)
    (hc : HTTPClient) (ctx : Context) (req : Request) (resp : Response)
    (h1 : c.client = some hc)
    (h2 : NewRequestWithContext (some ctx) MethodGet c.baseURL none = .ok req)
    (h3 : hc.Do DefaultTransport req = .ok resp) (h4 : resp.StatusCode = 200) :
    (∀ cause, Decode resp.Body = .error cause →
      RequestJWT DefaultTransport c (some ctx) =
        some (([], some (w (str "%w: %w") [ErrMalformedServerData, cause])),
          [.stdout (str "Making request to " ++ c.baseURL ++ str "\n"), .Do req,
            .decodeBody resp.Body, .closeBody]) ∧
      Is (w (str "%w: %w") [ErrMalformedServerData, cause]) ErrMalformedServerData = true ∧
      Is (w (str "%w: %w") [ErrMalformedServerData, cause]) cause = true) ∧
    (∀ jwtResp, Decode resp.Body = .ok jwtResp →
      RequestJWT DefaultTransport c (some ctx) =
        some ((jwtResp.Token, none),
          [.stdout (str "Making request to " ++ c.baseURL ++ str "\n"), .Do req,
            .decodeBody resp.Body, .closeBody])) ∧
    (Decode (str "\x7b\"bad_token")).isOk = false ∧
    (Decode (str "\x7b\"token\": 1234\x7d")).isOk = false ∧
    (Decode (str "\x7b\"token\":false\x7d")).isOk = false ∧
    Decode (str "\x7b\x7d") = .ok { Token := [] } ∧
    Decode (str "\x7b\"token\":null\x7d") = .ok { Token := [] } := by
  have hf := RequestJWT_formed DefaultTransport c hc (some ctx) req h1 h2
  rw [h3] at hf
  simp only [StatusOK] at hf
  rw [if_neg (not_not.2 h4)] at hf
  refine ⟨?_, ?_, by decide, by decide, by decide, by decide, by decide⟩
  · intro cause h5
    rw [h5] at hf
    exact ⟨hf, Is_wrapErrors_left _ _ _ _ (by decide), Is_wrapErrors_right _ _ _ _ (Is_self _)⟩
  · intro jwtResp h5
    rw [h5] at hf
    exact hf

/-- The body with a numeric token of the package test. -/
theorem RequestJWT_malformed_body_witness :
    RequestJWT (answering ⟨200, str "\x7b\"token\": 1234\x7d"⟩) (sampleClient none)
        (some ⟨false⟩) =
      some (([], some (w (str "%w: %w") [ErrMalformedServerData, UnmarshalTypeError "number"])),
        [.stdout (str "Making request to " ++ (sampleClient none).baseURL ++ str "\n"),
          .Do (sampleRequest ⟨false⟩),
          .decodeBody (str "\x7b\"token\": 1234\x7d"), .closeBody]) ∧
    Is (w (str "%w: %w") [ErrMalformedServerData, UnmarshalTypeError "number"])
      ErrMalformedServerData = true :=
  have h := (RequestJWT_malformed_body (answering ⟨200, str "\x7b\"token\": 1234\x7d"⟩)
    (sampleClient none) { Transport := none, Timeout := 0 } ⟨false⟩ (sampleRequest ⟨false⟩)
    ⟨200, str "\x7b\"token\": 1234\x7d"⟩ rfl (by decide) rfl rfl).1
    (UnmarshalTypeError "number") (by decide)
  ⟨h.1, h.2.1⟩

/-- C2: with the flag `override-url` left at its declared default, the URL
`run` hands to `NewClient` is that default, not "http://provider.cluster.local";
the client built stores "https://evildomain.lab", and the one request of `main`
goes to the host evildomain.lab. -/
theorem run_default_override_url (DefaultTransport : RoundTripper) :
    overrideURL ≠ [] ∧ overrideURL.length = 88 ∧
    defaultURL overrideURL = overrideURL ∧
    defaultURL overrideURL ≠ str "http://provider.cluster.local" ∧
    clean (defaultURL overrideURL) = str "https://evildomain.lab" ∧
    (NewClient [BasicAuth (str "bob") (str "password"), ServiceURL (defaultURL overrideURL)]).map
      (fun c => c.baseURL) = .ok (str "https://evildomain.lab") ∧
    (main DefaultTransport (some (str "bob")) (some (str "password")) none).map
      (fun r => (sentRequests r.2).map (fun req => (req.Method, req.URL.String, req.Host))) =
      some [(str "GET", str "https://evildomain.lab", str "evildomain.lab")] := by
  refine ⟨by decide, by decide, by decide, by decide, by decide, by decide, ?_⟩
  have hN : NewClient [BasicAuth (str "bob") (str "password"),
      ServiceURL (defaultURL overrideURL)] =
      .ok { baseURL := str "https://evildomain.lab", username := str "bob",
            password := str "password",
            client := some { Transport := none, Timeout := 60 * Second } } := by rfl
  have hR := RequestJWT_formed DefaultTransport
    { baseURL := str "https://evildomain.lab", username := str "bob",
      password := str "password",
      client := some { Transport := none, Timeout := 60 * Second } }
    { Transport := none, Timeout := 60 * Second } (some ⟨false⟩)
    { Method := str "GET"
      URL := { Scheme := str "https", Host := str "evildomain.lab" }
      Header := []
      Body := none
      Host := str "evildomain.lab"
      ctx := ⟨false⟩ } rfl (by decide)
  unfold main run
  simp only [Option.getD_some, Option.getD_none]
  rw [hN]
  dsimp only
  rw [hR]
  cases HTTPClient.Do DefaultTransport { Transport := none, Timeout := 60 * Second } _ with
  | error e => rfl
  | ok resp =>
    dsimp only
    split_ifs
    · rfl
    · cases Decode resp.Body <;> rfl

/-! ## The JSON decoder on a token object -/

theorem hexDigit_spec (c v : Nat) (h : hexDigit c = some v) : ishex c = true ∧ unhex c = v := by
  unfold hexDigit at h
  unfold ishex unhex
  split_ifs at h with a b d
  · simp only [Option.some.injEq] at h
    simp [a]; omega
  · simp only [Option.some.injEq] at h
    have : ¬ (48 ≤ c ∧ c ≤ 57) := a
    simp [a, b]; omega
  · simp only [Option.some.injEq] at h
    simp [a, b, d]; omega

theorem getu4_hex4 (h1 h2 h3 h4 r : Nat) (rest : GoString) (h : hex4 h1 h2 h3 h4 = some r) :
    getu4 (h1 :: h2 :: h3 :: h4 :: rest) = .ok (r, rest) := by
  unfold hex4 at h
  cases e1 : hexDigit h1 with
  | none => simp [e1] at h
  | some a =>
    cases e2 : hexDigit h2 with
    | none => simp [e1, e2] at h
    | some b =>
      cases e3 : hexDigit h3 with
      | none => simp [e1, e2, e3] at h
      | some c =>
        cases e4 : hexDigit h4 with
        | none => simp [e1, e2, e3, e4] at h
        | some d =>
          simp only [e1, e2, e3, e4, Option.some.injEq] at h
          obtain ⟨i1, u1⟩ := hexDigit_spec _ _ e1
          obtain ⟨i2, u2⟩ := hexDigit_spec _ _ e2
          obtain ⟨i3, u3⟩ := hexDigit_spec _ _ e3
          obtain ⟨i4, u4⟩ := hexDigit_spec _ _ e4
          simp [getu4, i1, i2, i3, i4, u1, u2, u3, u4, h]

theorem EncodeRune_head (r : Nat) :
    ∃ c0 t0, EncodeRune r = c0 :: t0 ∧ (r < 0x80 → c0 = r ∧ t0 = []) ∧ (0x80 ≤ r → 0x80 ≤ c0) := by
  unfold EncodeRune
  split_ifs with h1 h2 h3 h4
  · exact ⟨_, _, rfl, fun _ => ⟨rfl, rfl⟩, fun h => by omega⟩
  · exact ⟨_, _, rfl, fun h => by omega, fun _ => by omega⟩
  · exact ⟨_, _, rfl, fun h => by omega, fun _ => by omega⟩
  · exact ⟨_, _, rfl, fun h => by omega, fun _ => by omega⟩
  · exact ⟨_, _, rfl, fun h => by omega, fun _ => by omega⟩

theorem utf8_cons (r : Nat) (s : List Nat) : utf8 (r :: s) = EncodeRune r ++ utf8 s := by
  simp [utf8]

theorem emit_ok (p v rest : GoString) : emit p (.ok (v, rest)) = .ok (p ++ v, rest) := rfl

theorem stringBody_quote (n : Nat) (rest : GoString) :
    stringBody (n + 1) (34 :: rest) = .ok ([], rest) := by
  simp [stringBody]

theorem stringBody_ascii (n c : Nat) (rest : GoString) (h1 : c ≠ 34) (h2 : c ≠ 92)
    (h3 : 0x20 ≤ c) (h4 : c < 0x80) :
    stringBody (n + 1) (c :: rest) = emit [c] (stringBody n rest) := by
  have a3 : ¬ c < 0x20 := by omega
  simp only [stringBody, h1, h2, a3, h4, if_false, if_true]

theorem stringBody_multi (n c : Nat) (rest : GoString) (h : 0x80 ≤ c) :
    stringBody (n + 1) (c :: rest) =
      emit (EncodeRune (DecodeRune (c :: rest)).1)
        (stringBody n (rest.drop ((DecodeRune (c :: rest)).2 - 1))) := by
  have a1 : ¬ c = 34 := by omega
  have a2 : ¬ c = 92 := by omega
  have a3 : ¬ c < 0x20 := by omega
  have a4 : ¬ c < 0x80 := by omega
  simp only [stringBody, a1, a2, a3, a4, if_false]

theorem stringBody_short (n e b : Nat) (rest : GoString) (h1 : e ≠ 117)
    (h2 : unescapeByte e = some b) :
    stringBody (n + 1) (92 :: e :: rest) = emit [b] (stringBody n rest) := by
  simp only [stringBody, h1, h2, if_false]
  simp only [(by decide : ¬ (92 : Nat) = 34), if_false, if_true]

theorem stringBody_hex (n rr : Nat) (rest rest2 : GoString) (h1 : getu4 rest = .ok (rr, rest2))
    (h2 : ¬ (0xD800 ≤ rr ∧ rr < 0xE000)) :
    stringBody (n + 1) (92 :: 117 :: rest) = emit (EncodeRune rr) (stringBody n rest2) := by
  simp only [stringBody, h1, h2, if_false]
  simp only [(by decide : ¬ (92 : Nat) = 34), if_false, if_true]

theorem stringBody_pair (n rr dec : Nat) (rest rest2 rest3 : GoString)
    (h1 : getu4 rest = .ok (rr, rest2)) (h2 : 0xD800 ≤ rr ∧ rr < 0xE000)
    (h3 : surrogatePair rr rest2 = some (dec, rest3)) :
    stringBody (n + 1) (92 :: 117 :: rest) = emit (EncodeRune dec) (stringBody n rest3) := by
  simp only [stringBody, h1, h2, h3, if_true]
  simp only [(by decide : ¬ (92 : Nat) = 34), if_false, if_true, and_self]

theorem stringBody_JSONChars (q : GoString) (s : List Nat) (hq : JSONChars q s) :
    ∀ (n : Nat) (rest : GoString), q.length + 1 ≤ n →
      stringBody n (q ++ 34 :: rest) = .ok (utf8 s, rest) := by
  induction hq with
  | nil =>
    intro n rest hn
    obtain ⟨m, rfl⟩ : ∃ m, n = m + 1 := ⟨n - 1, by omega⟩
    rw [List.nil_append, stringBody_quote]
    rfl
  | plain r q s h20 h22 h5c hv _ ih =>
    intro n rest hn
    obtain ⟨m, rfl⟩ : ∃ m, n = m + 1 := ⟨n - 1, by omega⟩
    obtain ⟨c0, t0, he, hlt, hge⟩ := EncodeRune_head r
    have hdec := DecodeRune_EncodeRune r (q ++ 34 :: rest) hv
    rw [List.length_append] at hn
    rw [utf8_cons, List.append_assoc]
    by_cases hr : r < 0x80
    · obtain ⟨rfl, rfl⟩ := hlt hr
      rw [he] at hn ⊢
      rw [List.cons_append, List.nil_append, stringBody_ascii m c0 _ h22 h5c h20 hr,
        ih m rest (by simp at hn; omega), emit_ok]
    · have hc0 := hge (by omega)
      rw [he] at hdec hn
      rw [List.cons_append] at hdec
      rw [he, List.cons_append, stringBody_multi m c0 _ hc0, hdec]
      simp only [List.length_cons, Nat.add_sub_cancel]
      rw [List.drop_left, ih m rest (by simp at hn; omega), emit_ok, ← he]
  | short e b q s hmem _ ih =>
    intro n rest hn
    obtain ⟨m, rfl⟩ : ∃ m, n = m + 1 := ⟨n - 1, by omega⟩
    simp only [List.length_cons] at hn
    have key : ∀ p ∈ [(34, 34), (92, 92), (47, 47), (98, 8), (102, 12), (110, 10), (114, 13),
        (116, 9)], p.1 ≠ 117 ∧ unescapeByte p.1 = some p.2 ∧ p.2 < 0x80 := by decide
    have hb : e ≠ 117 ∧ unescapeByte e = some b ∧ b < 0x80 := key (e, b) hmem
    obtain ⟨h117, hub, hb80⟩ := hb
    have hE : EncodeRune b = [b] := by simp [EncodeRune, hb80]
    rw [List.cons_append, List.cons_append, stringBody_short m e b _ h117 hub,
      ih m rest (by omega), emit_ok, utf8_cons, hE]
  | hex h1 h2 h3 h4 r q s hh hv _ ih =>
    intro n rest hn
    obtain ⟨m, rfl⟩ : ∃ m, n = m + 1 := ⟨n - 1, by omega⟩
    simp only [List.length_cons] at hn
    have hg := getu4_hex4 h1 h2 h3 h4 r (q ++ 34 :: rest) hh
    have hs : ¬ (0xD800 ≤ r ∧ r < 0xE000) := by omega
    simp only [List.cons_append]
    rw [stringBody_hex m r _ _ hg hs, ih m rest (by omega), emit_ok, utf8_cons]
  | pair h1 h2 h3 h4 l1 l2 l3 l4 hi lo q s hh hl a1 a2 a3 a4 _ ih =>
    intro n rest hn
    obtain ⟨m, rfl⟩ : ∃ m, n = m + 1 := ⟨n - 1, by omega⟩
    simp only [List.length_cons] at hn
    have hg := getu4_hex4 h1 h2 h3 h4 hi
      (92 :: 117 :: l1 :: l2 :: l3 :: l4 :: (q ++ 34 :: rest)) hh
    have hg2 := getu4_hex4 l1 l2 l3 l4 lo (q ++ 34 :: rest) hl
    have hs : (0xD800 ≤ hi ∧ hi < 0xE000) := by omega
    have hp : (0xD800 ≤ hi ∧ hi < 0xDC00 ∧ 0xDC00 ≤ lo ∧ lo < 0xE000) := by omega
    have h3 : surrogatePair hi (92 :: 117 :: l1 :: l2 :: l3 :: l4 :: (q ++ 34 :: rest)) =
        some ((hi - 0xD800) * 1024 + (lo - 0xDC00) + 0x10000, q ++ 34 :: rest) := by
      simp only [surrogatePair, hg2, hp, and_self, if_true]
    simp only [List.cons_append]
    rw [stringBody_pair m hi _ _ _ _ hg hs h3, ih m rest (by omega), emit_ok, utf8_cons]

theorem skipSpace_append (ws : GoString) (hws : JSONSpace ws) (c : Nat) (rest : GoString)
    (hc : isSpace c = false) : skipSpace (ws ++ c :: rest) = c :: rest := by
  induction ws with
  | nil => simp [skipSpace, List.dropWhile, hc]
  | cons b ws ih =>
    have hb : isSpace b = true := by
      rcases hws b (List.mem_cons_self _ _) with rfl | rfl | rfl | rfl <;> decide
    have := ih (fun x hx => hws x (List.mem_cons_of_mem _ hx))
    simp only [skipSpace] at this ⊢
    rw [List.cons_append, List.dropWhile_cons, if_pos hb, this]

theorem JSONChars_ascii (a : GoString)
    (ha : ∀ b ∈ a, 0x20 ≤ b ∧ b < 0x80 ∧ b ≠ 0x22 ∧ b ≠ 0x5C) : JSONChars a a := by
  induction a with
  | nil => exact JSONChars.nil
  | cons c t ih =>
    obtain ⟨h1, h2, h3, h4⟩ := ha c (List.mem_cons_self _ _)
    have hE : EncodeRune c = [c] := by simp [EncodeRune, h2]
    have := JSONChars.plain c t t h1 h3 h4 (Or.inl (by omega))
      (ih (fun x hx => ha x (List.mem_cons_of_mem _ hx)))
    rwa [hE] at this

theorem utf8_ascii (a : GoString) (ha : ∀ b ∈ a, b < 0x80) : utf8 a = a := by
  induction a with
  | nil => rfl
  | cons c t ih =>
    have hE : EncodeRune c = [c] := by simp [EncodeRune, ha c (List.mem_cons_self _ _)]
    rw [utf8_cons, hE, ih (fun x hx => ha x (List.mem_cons_of_mem _ hx))]
    rfl

theorem scan_string_value (n : Nat) (ws q : GoString) (s : List Nat) (rest : GoString)
    (hws : JSONSpace ws) (hq : JSONChars q s) :
    scan (n + 2) 1 [] true (ws ++ 34 :: (q ++ 34 :: rest)) = .ok rest := by
  have h1 : skipSpace (ws ++ 34 :: (q ++ 34 :: rest)) = 34 :: (q ++ 34 :: rest) :=
    skipSpace_append ws hws 34 _ (by decide)
  have h2 := stringBody_JSONChars q s hq (q ++ 34 :: rest).length rest (by simp)
  rw [scan]
  simp only [h1, h2]
  simp only [(by decide : ¬ (34 : Nat) = 123), (by decide : ¬ (34 : Nat) = 91), if_false, if_true]
  rw [scan]

theorem objectKey_token (w1 w2 rest : GoString) (hw1 : JSONSpace w1) (hw2 : JSONSpace w2) :
    objectKey (w1 ++ 34 :: (str "token" ++ 34 :: (w2 ++ 58 :: rest))) = .ok (str "token", rest) := by
  have h1 : skipSpace (w1 ++ 34 :: (str "token" ++ 34 :: (w2 ++ 58 :: rest))) =
      34 :: (str "token" ++ 34 :: (w2 ++ 58 :: rest)) := skipSpace_append w1 hw1 34 _ (by decide)
  have hk : JSONChars (str "token") (str "token") := JSONChars_ascii _ (by decide)
  have h2 := stringBody_JSONChars _ _ hk (str "token" ++ 34 :: (w2 ++ 58 :: rest)).length
    (w2 ++ 58 :: rest) (by simp)
  have h3 : skipSpace (w2 ++ 58 :: rest) = 58 :: rest := skipSpace_append w2 hw2 58 _ (by decide)
  have h4 : utf8 (str "token") = str "token" := utf8_ascii _ (by decide)
  unfold objectKey
  simp only [h1, h2, h3, h4, if_true]

/-- The decoder on an object with the one member "token" whose value is a
JSON string: the payload holds the text that the string denotes. -/
theorem Decode_tokenObject (w0 w1 w2 w3 w4 q tail : GoString) (s : List Nat)
    (h0 : JSONSpace w0) (h1 : JSONSpace w1) (h2 : JSONSpace w2) (h3 : JSONSpace w3)
    (h4 : JSONSpace w4) (hq : JSONChars q s) :
    Decode (tokenObject w0 w1 w2 w3 w4 q tail) = .ok { Token := utf8 s } := by
  unfold tokenObject Decode
  have e0 := skipSpace_append w0 h0 123
    (w1 ++ 34 :: (str "token" ++ 34 :: (w2 ++ 58 :: (w3 ++ 34 :: (q ++ 34 ::
      (w4 ++ 125 :: tail)))))) (by decide)
  have e1 := skipSpace_append w1 h1 34
    (str "token" ++ 34 :: (w2 ++ 58 :: (w3 ++ 34 :: (q ++ 34 :: (w4 ++ 125 :: tail)))))
    (by decide)
  have e3 := skipSpace_append w3 h3 34 (q ++ 34 :: (w4 ++ 125 :: tail)) (by decide)
  have e4 := skipSpace_append w4 h4 125 tail (by decide)
  have ek := objectKey_token w1 w2 (w3 ++ 34 :: (q ++ 34 :: (w4 ++ 125 :: tail))) h1 h2
  have es : scan ((w3 ++ 34 :: (q ++ 34 :: (w4 ++ 125 :: tail))).length + 1) 1 [] true
      (w3 ++ 34 :: (q ++ 34 :: (w4 ++ 125 :: tail))) = .ok (w4 ++ 125 :: tail) := by
    have hl : (w3 ++ 34 :: (q ++ 34 :: (w4 ++ 125 :: tail))).length + 1 =
        (w3.length + q.length + w4.length + tail.length + 2) + 2 := by
      simp only [List.length_append, List.length_cons]; omega
    rw [hl]
    exact scan_string_value _ w3 q s _ h3 hq
  have eb := stringBody_JSONChars q s hq (q ++ 34 :: (w4 ++ 125 :: tail)).length
    (w4 ++ 125 :: tail) (by simp)
  have ef : fieldMatch (str "token") = true := by decide
  simp only [e0, e1]
  simp only [(by decide : ¬ (34 : Nat) = 125), if_false, if_true]
  rw [objectMembers]
  simp only [ek, e3, es, ef, if_true, storeToken, eb, e4]
  simp only [(by decide : ¬ (125 : Nat) = 44), if_false, if_true]

theorem JSONSpace_nil : JSONSpace [] := fun _ h => absurd h (List.not_mem_nil _)

/-- C4: when the response has status 200 and its body is the JSON object with
the one member "token" whose value is a JSON string encoding the code points
`s`, `RequestJWT` returns the token `s` (in UTF-8), unchanged, and no error; for
the body with the token "abc123" it returns "abc123". -/
theorem RequestJWT_returns_token (DefaultTransport : RoundTripper) (c : client)
    (hc : HTTPClient) (ctx : Context) (req : Request) (resp : Response)
    (w0 w1 w2 w3 w4 q tail : GoString) (s : List Nat)
    (h1 : c.client = some hc)
    (h2 : NewRequestWithContext (some ctx) MethodGet c.baseURL none = .ok req)
    (h3 : hc.Do DefaultTransport req = .ok resp) (h4 : resp.StatusCode = 200)
    (h5 : resp.Body = tokenObject w0 w1 w2 w3 w4 q tail)
    (hw : JSONSpace w0 ∧ JSONSpace w1 ∧ JSONSpace w2 ∧ JSONSpace w3 ∧ JSONSpace w4)
    (hq : JSONChars q s) :
    RequestJWT DefaultTransport c (some ctx) =
      some ((utf8 s, none),
        [.stdout (str "Making request to " ++ c.baseURL ++ str "\n"), .Do req,
          .decodeBody resp.Body, .closeBody]) := by
  have hd : Decode resp.Body = .ok { Token := utf8 s } := by
    rw [h5]
    exact Decode_tokenObject w0 w1 w2 w3 w4 q tail s hw.1 hw.2.1 hw.2.2.1 hw.2.2.2.1 hw.2.2.2.2 hq
  rw [RequestJWT_formed DefaultTransport c hc (some ctx) req h1 h2, h3]
  simp only [StatusOK]
  rw [if_neg (not_not.2 h4), hd]

/-- The body of the package test, and a body with white space and escapes. -/
theorem RequestJWT_returns_token_witness :
    RequestJWT (answering ⟨200, str "\x7b\"token\":\"abc123\"\x7d"⟩) (sampleClient none)
        (some ⟨false⟩) =
      some ((str "abc123", none),
        [.stdout (str "Making request to http://provider.cluster.local\n"),
          .Do (sampleRequest ⟨false⟩),
          .decodeBody (str "\x7b\"token\":\"abc123\"\x7d"), .closeBody]) ∧
    RequestJWT (answering ⟨200, escapedBody⟩) (sampleClient none) (some ⟨false⟩) =
      some ((utf8 [32, 97, 0xE9, 34, 0x1F600, 0xE9, 32], none),
        [.stdout (str "Making request to http://provider.cluster.local\n"),
          .Do (sampleRequest ⟨false⟩), .decodeBody escapedBody, .closeBody]) :=
  ⟨RequestJWT_returns_token (answering ⟨200, str "\x7b\"token\":\"abc123\"\x7d"⟩)
      (sampleClient none) { Transport := none, Timeout := 0 } ⟨false⟩ (sampleRequest ⟨false⟩)
      ⟨200, str "\x7b\"token\":\"abc123\"\x7d"⟩ [] [] [] [] [] (str "abc123") []
      (str "abc123") rfl (by decide) rfl rfl (by decide)
      ⟨JSONSpace_nil, JSONSpace_nil, JSONSpace_nil, JSONSpace_nil, JSONSpace_nil⟩
      (JSONChars_ascii _ (by decide)),
   RequestJWT_returns_token (answering ⟨200, escapedBody⟩)
      (sampleClient none) { Transport := none, Timeout := 0 } ⟨false⟩ (sampleRequest ⟨false⟩)
      ⟨200, escapedBody⟩
      [32] [32] [32] [32] [32] (str " a\\u00e9\\\"\\ud83d\\ude00\u00e9 ") [10]
      [32, 97, 0xE9, 34, 0x1F600, 0xE9, 32] rfl (by decide) rfl rfl (by decide)
      ⟨by decide, by decide, by decide, by decide, by decide⟩
      (JSONChars.plain 32 _ _ (by decide) (by decide) (by decide) (by decide)
        (JSONChars.plain 97 _ _ (by decide) (by decide) (by decide) (by decide)
          (JSONChars.hex 48 48 101 57 0xE9 _ _ (by decide) (by decide)
            (JSONChars.short 34 34 _ _ (by decide)
              (JSONChars.pair 100 56 51 100 100 101 48 48 0xD83D 0xDE00 _ _ (by decide)
                (by decide) (by decide) (by decide) (by decide) (by decide)
                (JSONChars.plain 0xE9 _ _ (by decide) (by decide) (by decide) (by decide)
                  (JSONChars.plain 32 _ _ (by decide) (by decide) (by decide) (by decide)
                    JSONChars.nil)))))))⟩

end Plainsight
